import Mathlib

/-!
namma_torrent: session layer, range-serving handler, download resolver

A shallow embedding of `torrent_streamer/go/torrentstreamer/torrent.go`.

Conventions of the embedding
* Go strings are `List Char`; literals are written `"...".toList`.
* `int`/`int64` values are `Int`; the one subtraction whose operands are not
  bounded by construction (`end-start+1`) goes through `wrapInt64`.
* A Go run-time panic (nil dereference, slice bounds) is the result `none`.
* Calls into the operating system and the torrent engine take their outcome
  from an explicit environment record, one field per call site.
-/

namespace TorrentStreamer

/-! ## Go standard library: strings, strconv, fmt -/

/-- Go string, as the list of its characters. -/
abbrev GoString := List Char

/-- Two's complement truncation to `int64`. -/
def wrapInt64 (x : Int) : Int :=
  (x + 9223372036854775808) % 18446744073709551616 - 9223372036854775808

def maxUint64 : Nat := 18446744073709551615

def maxInt64 : Int := 9223372036854775807

/-- The `*NumError` kinds of `strconv`. -/
inductive NumError where
  | errSyntax
  | errRange
  deriving DecidableEq, Repr

/-- ASCII decimal digit test, `'0' <= c && c <= '9'`. -/
def isDigit (c : Char) : Bool := decide (48 ≤ c.toNat) && decide (c.toNat ≤ 57)

/-- The digit loop of `strconv.ParseUint(s, 10, 64)`; `n` is the accumulator.
A byte that is not a decimal digit (letters give `d >= base`) is a syntax
error with value 0; overflow returns `maxUint64` with a range error at once. -/
def parseUintLoop : Nat → GoString → Nat × Option NumError
  | n, [] => (n, none)
  | n, c :: cs =>
    if isDigit c then
      let d := c.toNat - 48
      -- cutoff = maxUint64/10 + 1
      if n ≥ maxUint64 / 10 + 1 then (maxUint64, some .errRange)
      else
        let n10 := (n * 10) % 18446744073709551616
        let n1 := (n10 + d) % 18446744073709551616
        if n1 < n10 ∨ n1 > maxUint64 then (maxUint64, some .errRange)
        else parseUintLoop n1 cs
    else (0, some .errSyntax)

/-- Model of `strconv.ParseUint(s, 10, 64)`. -/
def ParseUint (s : GoString) : Nat × Option NumError :=
  match s with
  | [] => (0, some .errSyntax)
  | _ => parseUintLoop 0 s

/-- Model of `strconv.ParseInt(s, 10, 64)`: value and error. The value is
returned also when the error is set (0 on syntax errors, the nearest bound on
range errors), which is what a caller that drops the error sees. -/
def ParseInt (s : GoString) : Int × Option NumError :=
  match s with
  | [] => (0, some .errSyntax)
  | c :: cs =>
    let neg := c = '-'
    let rest := if c = '+' ∨ c = '-' then cs else c :: cs
    match ParseUint rest with
    | (_, some .errSyntax) => (0, some .errSyntax)
    | (un, _) =>
      -- cutoff = 1 << 63
      if ¬ neg ∧ un ≥ 9223372036854775808 then (maxInt64, some .errRange)
      else if neg ∧ un > 9223372036854775808 then (-9223372036854775808, some .errRange)
      else (if neg then -(un : Int) else (un : Int), none)

/-- Model of `strconv.Atoi` on a 64-bit target; it agrees with
`ParseInt(s, 10, 64)` on value and on whether an error is reported. -/
def Atoi (s : GoString) : Int × Option NumError := ParseInt s

/-- The character of a decimal digit. -/
def digitChar (d : Nat) : Char :=
  match d with
  | 0 => '0' | 1 => '1' | 2 => '2' | 3 => '3' | 4 => '4'
  | 5 => '5' | 6 => '6' | 7 => '7' | 8 => '8' | _ => '9'

/-- Decimal digits of `n`, most significant first; `fuel` bounds the number
of digits produced. -/
def formatUintFuel : Nat → Nat → GoString
  | 0, n => [digitChar (n % 10)]
  | fuel + 1, n =>
    if n < 10 then [digitChar n]
    else formatUintFuel fuel (n / 10) ++ [digitChar (n % 10)]

/-- Decimal rendering of a natural number (`%d` on a non-negative value). -/
def formatUint (n : Nat) : GoString := formatUintFuel n n

/-- Decimal rendering of an integer, the `%d` verb of `fmt.Sprintf`. -/
def formatInt (i : Int) : GoString :=
  if i < 0 then '-' :: formatUint i.natAbs else formatUint i.natAbs

/-- Model of `strings.Split(s, "-")`-style splitting on a one-byte
separator: `k` separators give `k+1` parts, the empty string gives `[""]`. -/
def stringsSplit (sep : Char) : GoString → List GoString
  | [] => [[]]
  | c :: cs =>
    if c = sep then [] :: stringsSplit sep cs
    else
      match stringsSplit sep cs with
      | [] => [[c]]
      | p :: ps => (c :: p) :: ps

/-- Model of `strings.HasPrefix`. -/
def hasPrefix (s pre : GoString) : Bool := pre.isPrefixOf s

/-! ## Go standard library: path/filepath (separator `/`) -/

/-- Model of `os.IsPathSeparator` on a Unix target. -/
def isPathSeparator (c : Char) : Bool := c = '/'

/-- Drop the trailing path separators of a reversed path. -/
def stripTrailingSep : GoString → GoString
  | [] => []
  | c :: cs => if isPathSeparator c then stripTrailingSep cs else c :: cs

/-- Model of `filepath.Base`: the last element of the path, after removing
trailing separators; `"."` for the empty path, `"/"` for a path of
separators only. -/
def Base (path : GoString) : GoString :=
  if path = [] then ['.']
  else
    let stripped := stripTrailingSep path.reverse
    let last := (stripped.takeWhile (fun c => !isPathSeparator c)).reverse
    if last = [] then ['/'] else last

/-- The scan of `filepath.Ext` over the reversed path; `acc` is the suffix
already passed. -/
def extLoop : GoString → GoString → GoString
  | [], _ => []
  | c :: cs, acc =>
    if isPathSeparator c then []
    else if c = '.' then c :: acc
    else extLoop cs (c :: acc)

/-- Model of `filepath.Ext`: the suffix beginning at the final dot of the
last path element, empty when there is none. -/
def Ext (path : GoString) : GoString := extLoop path.reverse []

/-- The backtracking of `filepath.Clean` on a `..` element, over the reversed
output buffer: `removed` is the byte at index `w`, the list is `buf[0:w]`. -/
def cleanBacktrack (dotdot : Nat) : Char → GoString → GoString
  | _, [] => []
  | removed, c :: rest =>
    if (c :: rest).length > dotdot ∧ !isPathSeparator removed then
      cleanBacktrack dotdot c rest
    else c :: rest

/-- The main loop of `filepath.Clean`. `path` is the unread input, `out` the
reversed output buffer, `dotdot` the index where `..` must stop. -/
def cleanLoop (rooted : Bool) : Nat → GoString → GoString → Nat → GoString
  | 0, _, out, _ => out
  | _ + 1, [], out, _ => out
  | fuel + 1, c :: cs, out, dotdot =>
    if isPathSeparator c then
      -- empty path element
      cleanLoop rooted fuel cs out dotdot
    else if c = '.' ∧ (cs = [] ∨ cs.head?.any isPathSeparator) then
      -- . element
      cleanLoop rooted fuel cs out dotdot
    else if c = '.' ∧ cs.head? = some '.' ∧
        (cs.tail = [] ∨ cs.tail.head?.any isPathSeparator) then
      -- .. element: remove to last separator
      match out with
      | last :: before =>
        if out.length > dotdot then
          cleanLoop rooted fuel cs.tail (cleanBacktrack dotdot last before) dotdot
        else if !rooted then
          cleanLoop rooted fuel cs.tail ('.' :: '.' :: '/' :: out) (out.length + 3)
        else cleanLoop rooted fuel cs.tail out dotdot
      | [] =>
        if !rooted then cleanLoop rooted fuel cs.tail ['.', '.'] 2
        else cleanLoop rooted fuel cs.tail out dotdot
    else
      -- real path element: add slash if needed, copy element
      let out1 :=
        if (rooted ∧ out.length ≠ 1) ∨ (!rooted ∧ out.length ≠ 0) then '/' :: out else out
      let elem := (c :: cs).takeWhile (fun x => !isPathSeparator x)
      let rest := (c :: cs).dropWhile (fun x => !isPathSeparator x)
      cleanLoop rooted fuel rest (elem.reverse ++ out1) dotdot

/-- Model of `filepath.Clean` (no volume names on Unix). -/
def Clean (path : GoString) : GoString :=
  match path with
  | [] => ['.']
  | c :: _ =>
    let rooted := isPathSeparator c
    let out :=
      if rooted then cleanLoop rooted (path.length + 1) path.tail ['/'] 1
      else cleanLoop rooted (path.length + 1) path [] 0
    if out = [] then ['.'] else out.reverse

/-- Model of `filepath.Join` for two elements: empty elements are ignored,
the rest is joined with `/` and cleaned; all empty gives the empty string. -/
def Join (a b : GoString) : GoString :=
  if a ≠ [] then Clean (a ++ '/' :: b)
  else if b ≠ [] then Clean b
  else []

/-- Model of `filepath.Dir`: everything up to the last separator, cleaned. -/
def Dir (path : GoString) : GoString :=
  Clean ((path.reverse.dropWhile (fun c => !isPathSeparator c)).reverse)

/-! ## Data model -/

/-- The engine's view of one file of a torrent (`*torrent.File`): what
`DisplayPath()`, `Length()` (the size of `content`), `BytesCompleted()` and a
reader opened with `NewReader()` deliver. -/
structure File where
  displayPath : GoString
  content : List UInt8
  bytesCompleted : Int
  deriving DecidableEq

/-- `file.Length()`. -/
def File.Length (f : File) : Int := (f.content.length : Int)

/-- A transfer handle (`*torrent.Torrent`): its hex info-hash and `Files()`.
An entry `none` of the file list is a nil pointer. -/
structure Torrent where
  infoHash : GoString
  files : List (Option File)
  deriving DecidableEq

/-- The engine instance (`*torrent.Client`), identified by its `DataDir`. -/
structure Client where
  dataDir : GoString
  deriving DecidableEq

/-- The HTTP listener (`*http.Server`), identified by its port. -/
structure HttpServer where
  port : Int
  deriving DecidableEq

/-- The package-level variables `client`, `torrents`, `downloadDir`,
`httpServer`, `serverPort`. The map is an association list with unique keys. -/
structure Session where
  client : Option Client
  torrents : List (GoString × Torrent)
  downloadDir : GoString
  httpServer : Option HttpServer
  serverPort : Int
  deriving DecidableEq

/-- The values of the package-level variables at program start. -/
def Session.initial : Session :=
  { client := none, torrents := [], downloadDir := [], httpServer := none, serverPort := 0 }

/-- Map read `torrents[hash]`. -/
def Session.lookup (s : Session) (hash : GoString) : Option Torrent :=
  s.torrents.lookup hash

/-- Map write `torrents[hash] = t`. -/
def mapInsert (m : List (GoString × Torrent)) (hash : GoString) (t : Torrent) :
    List (GoString × Torrent) :=
  (hash, t) :: m.filter (fun p => p.1 ≠ hash)

/-- The JSON element type `TorrentFile`. -/
structure TorrentFile where
  Name : GoString
  Path : GoString
  Size : Int
  Index : Int
  MimeType : GoString
  deriving DecidableEq

/-- Helper of the source: MIME type from the file extension. -/
def getMimeType (filePath : GoString) : GoString :=
  let ext := Ext filePath
  if ext = ".mp4".toList then "video/mp4".toList
  else if ext = ".mkv".toList then "video/x-matroska".toList
  else if ext = ".avi".toList then "video/x-msvideo".toList
  else if ext = ".mov".toList then "video/quicktime".toList
  else if ext = ".wmv".toList then "video/x-ms-wmv".toList
  else if ext = ".flv".toList then "video/x-flv".toList
  else if ext = ".webm".toList then "video/webm".toList
  else if ext = ".mp3".toList then "audio/mpeg".toList
  else if ext = ".wav".toList then "audio/wav".toList
  else if ext = ".flac".toList then "audio/flac".toList
  else if ext = ".jpg".toList ∨ ext = ".jpeg".toList then "image/jpeg".toList
  else if ext = ".png".toList then "image/png".toList
  else if ext = ".gif".toList then "image/gif".toList
  else if ext = ".txt".toList then "text/plain".toList
  else if ext = ".pdf".toList then "application/pdf".toList
  else "application/octet-stream".toList

/-- Find an available port: the loop `for port := startPort;
port < startPort+100; port++`, with `listenOk port` telling whether
`net.Listen` on the port succeeds. The result is the pair `(port, err)`. -/
def findAvailablePortLoop (listenOk : Int → Bool) (limit : Int) :
    Nat → Int → Int × Option GoString
  | 0, _ => (0, some "no available ports found".toList)
  | fuel + 1, port =>
    if port < limit then
      if listenOk port then (port, none)
      else findAvailablePortLoop listenOk limit fuel (wrapInt64 (port + 1))
    else (0, some "no available ports found".toList)

/-- Model of `findAvailablePort`; the loop runs at most 100 times. -/
def findAvailablePort (listenOk : Int → Bool) (startPort : Int) : Int × Option GoString :=
  findAvailablePortLoop listenOk (wrapInt64 (startPort + 100)) 100 startPort

namespace TopLevel

/-- The loop of the second `findAvailablePort`, in `torrent_streamer/torrent.go`:
the same scan, with `listenOk port` telling whether `anet.Listen` on
`:<port>` succeeds, and its own error text. -/
def findAvailablePortLoop (listenOk : Int → Bool) (limit : Int) :
    Nat → Int → Int × Option GoString
  | 0, _ => (0, some "no available port found".toList)
  | fuel + 1, port =>
    if port < limit then
      if listenOk port then (port, none)
      else findAvailablePortLoop listenOk limit fuel (wrapInt64 (port + 1))
    else (0, some "no available port found".toList)

/-- Model of `findAvailablePort` of `torrent_streamer/torrent.go`: it tries
to find an available port starting from the given port number. -/
def findAvailablePort (listenOk : Int → Bool) (startPort : Int) : Int × Option GoString :=
  findAvailablePortLoop listenOk (wrapInt64 (startPort + 100)) 100 startPort

end TopLevel

/-! ## Range-serving HTTP handler -/

/-- What the handler reads from `*http.Request`: the query parameters
`hash` and `file` and the `Range` header (empty when absent). -/
structure Request where
  hash : GoString
  file : GoString
  range : GoString
  deriving DecidableEq

/-- The range computed by the handler: `start`, `end` and whether the
`Content-Range` header and status 206 were written. -/
structure ByteRange where
  start : Int
  stop : Int
  partialContent : Bool
  deriving DecidableEq

/-- Lines 96-121 of the source: parse the `Range` header against a file of
`length` bytes. `start` and `end` begin as 0. -/
def parseRange (rangeHeader : GoString) (length : Int) : ByteRange :=
  if rangeHeader ≠ [] then
    if hasPrefix rangeHeader "bytes=".toList then
      let rangeStr := rangeHeader.drop 6
      match stringsSplit '-' rangeStr with
      | [p0, p1] =>
        let start := (ParseInt p0).1
        let stop := if p1 ≠ [] then (ParseInt p1).1 else length - 1
        let stop := if stop ≥ length then length - 1 else stop
        { start := start, stop := stop, partialContent := true }
      | _ => { start := 0, stop := 0, partialContent := false }
    else { start := 0, stop := 0, partialContent := false }
  else { start := 0, stop := length - 1, partialContent := false }

/-- Model of `io.CopyN(w, reader, n)` on a reader over `content` positioned
at `pos`: the bytes written. Nothing is written when `n <= 0`, and the copy
stops at the end of the content. -/
def copyN (content : List UInt8) (pos : Int) (n : Int) : List UInt8 :=
  (content.drop pos.toNat).take n.toNat

/-- The response of the streaming path of the handler. -/
structure StreamResponse where
  status : Nat
  contentType : GoString
  contentLength : GoString
  acceptRanges : GoString
  contentRange : Option GoString
  readerPos : Int
  copyCount : Int
  body : List UInt8
  deriving DecidableEq

/-- The outcome of one request: an `http.Error` reply or a streamed file. -/
inductive HandlerResult where
  | error (code : Nat) (msg : GoString)
  | stream (r : StreamResponse)
  deriving DecidableEq

/-- Lines 90-139 of the source, once the file is resolved: the headers, the
status, the seek and the copy, from the parsed range. `readerPos` is the
reader offset when the copy starts (`Seek` is called only when `start > 0`),
`copyCount` the count given to `io.CopyN`, `body` the bytes it writes. -/
def streamResponseOf (file : File) (rg : ByteRange) : StreamResponse :=
  { status := if rg.partialContent then 206 else 200
    contentType := getMimeType file.displayPath
    contentLength := formatInt file.Length
    acceptRanges := "bytes".toList
    contentRange :=
      if rg.partialContent then
        some ("bytes ".toList ++ formatInt rg.start ++ "-".toList ++
          formatInt rg.stop ++ "/".toList ++ formatInt file.Length)
      else none
    readerPos := if rg.start > 0 then rg.start else 0
    copyCount := wrapInt64 (rg.stop - rg.start + 1)
    body := copyN file.content (if rg.start > 0 then rg.start else 0)
      (wrapInt64 (rg.stop - rg.start + 1)) }

/-- Stream handler function. The result `none` is a panic on a nil file. -/
def streamHandler (s : Session) (r : Request) : Option HandlerResult :=
  if r.hash = [] ∨ r.file = [] then
    some (.error 400 "Missing hash or file parameter".toList)
  else
    match s.lookup r.hash with
    | none => some (.error 404 "Torrent not found".toList)
    | some t =>
      match Atoi r.file with
      | (_, some _) => some (.error 400 "Invalid file index".toList)
      | (fileIndex, none) =>
        let files := t.files
        if fileIndex < 0 ∨ fileIndex ≥ files.length then
          some (.error 400 ("File index out of range (0-".toList ++
            formatInt ((files.length : Int) - 1) ++ ")".toList))
        else
          match files.get? fileIndex.toNat with
          | some (some file) =>
            some (.stream (streamResponseOf file (parseRange r.range file.Length)))
          | _ => none

/-! ## Session lifecycle -/

/-- Outcomes of the system and engine calls made by one `InitTorrentClient`:
whether `os.Stat` reports the default directory missing, the error text (if
any) of the two `os.MkdirAll`, of `os.WriteFile` and of `torrent.NewClient`,
and which ports `net.Listen` can bind. -/
structure InitEnv where
  defaultDirNotExist : Bool
  mkdirAllDownload : Option GoString
  writeFile : Option GoString
  mkdirAllData : Option GoString
  newClient : Option GoString
  listenOk : Int → Bool

/-- Exported `InitTorrentClient`: the new package state and the returned
string. `torrent.NewClient` returns a nil client together with an error. -/
def InitTorrentClient (s : Session) (cacheDir customDownloadDir : GoString) (env : InitEnv) :
    Session × GoString :=
  -- Properly clean up existing client
  let s1 : Session := if s.client.isSome then { s with torrents := [], client := none } else s
  -- Stop any existing HTTP server
  let s2 : Session := if s1.httpServer.isSome then { s1 with httpServer := none } else s1
  if cacheDir = [] then (s2, "Error: Cache directory path is empty".toList)
  else
    let dir : GoString :=
      if customDownloadDir ≠ [] then customDownloadDir
      else if env.defaultDirNotExist then Join cacheDir "torrentstreamer_downloads".toList
      else "/storage/emulated/0/Download".toList
    let s3 : Session := { s2 with downloadDir := dir }
    match env.mkdirAllDownload with
    | some e => (s3, "Error creating download dir: ".toList ++ e)
    | none =>
      match env.writeFile with
      | some e => (s3, "Error: Cannot write to download directory: ".toList ++ e)
      | none =>
        match env.mkdirAllData with
        | some e => (s3, "Error creating torrent data dir: ".toList ++ e)
        | none =>
          match env.newClient with
          | some e => ({ s3 with client := none }, "Error creating torrent client: ".toList ++ e)
          | none =>
            let s4 : Session := { s3 with client := some { dataDir := dir } }
            match findAvailablePort env.listenOk 8080 with
            | (port, some e) =>
              ({ s4 with serverPort := port }, "Error finding available port: ".toList ++ e)
            | (port, none) =>
              ({ s4 with serverPort := port, httpServer := some { port := port } },
                "Torrent client initialized successfully. Download directory: ".toList ++ dir ++
                  ", Streaming on port: ".toList ++ formatInt port)

/-- Exported `ShutdownTorrentClient`. -/
def ShutdownTorrentClient (s : Session) : Session × GoString :=
  if s.client.isNone then (s, "Torrent client not initialized".toList)
  else
    let s1 : Session := { s with torrents := [], client := none }
    let s2 : Session := if s1.httpServer.isSome then { s1 with httpServer := none } else s1
    (s2, "Torrent client shut down successfully".toList)

/-- Outcome of the engine calls of one `AddTorrentAndGetInfoHash`: the pair
returned by `client.AddMagnet` and whether `GotInfo` fires within 30 s. -/
structure AddEnv where
  addErr : Option GoString
  torrent : Option Torrent
  gotInfo : Bool

/-- Exported `AddTorrentAndGetInfoHash`. -/
def AddTorrentAndGetInfoHash (s : Session) (magnetURI : GoString) (env : AddEnv) :
    Session × GoString :=
  if s.client.isNone then (s, "Error: Torrent client not initialized".toList)
  else if hasPrefix magnetURI "magnet:".toList then
    match env.addErr with
    | some e => (s, "Error adding torrent: ".toList ++ e)
    | none =>
      match env.torrent with
      | none => (s, "Error: Failed to create torrent (nil torrent object)".toList)
      | some t =>
        if env.gotInfo then
          ({ s with torrents := mapInsert s.torrents t.infoHash t }, t.infoHash)
        else (s, "Error: Timed out waiting for torrent info".toList)
  else if hasPrefix magnetURI "http://".toList ∨ hasPrefix magnetURI "https://".toList then
    (s, ("Error: Direct HTTP/HTTPS torrent links are not supported. " ++
      "Please use a magnet link instead.").toList)
  else (s, "Error: Invalid input format. Please provide a valid magnet URI.".toList)

/-- One lifecycle call from the host, with the outcomes of its external calls. -/
inductive Call where
  | init (cacheDir customDownloadDir : GoString) (env : InitEnv)
  | add (magnetURI : GoString) (env : AddEnv)
  | shutdown

/-- The package state after one lifecycle call. -/
def step (s : Session) : Call → Session
  | .init cacheDir custom env => (InitTorrentClient s cacheDir custom env).1
  | .add uri env => (AddTorrentAndGetInfoHash s uri env).1
  | .shutdown => (ShutdownTorrentClient s).1

/-- The package state after a sequence of lifecycle calls from program start. -/
def run (calls : List Call) : Session := calls.foldl step Session.initial

/-! ## Queries: stream URL, file listing, download resolver, progress -/

/-- The `float64` value of the progress field, kept symbolic: the literal 0
or the expression `float64(completed) / float64(total) * 100`. -/
inductive ProgressValue where
  | zero
  | percent (completed total : Int)
  deriving DecidableEq

/-- The anonymous response struct of `GetDownloadProgress`. -/
structure ProgressResponse where
  Completed : Int
  Total : Int
  Progress : ProgressValue
  Done : Bool
  deriving DecidableEq

/-- A returned C string: plain text, or the `json.Marshal` encoding of a
file list or of a progress response (the payload is kept structured). -/
inductive Reply where
  | text (s : GoString)
  | filesJSON (files : List TorrentFile)
  | progressJSON (r : ProgressResponse)
  deriving DecidableEq

/-- The not-found message `fmt.Sprintf("Error: Torrent with hash %s not found", h)`. -/
def notFoundMsg (hash : GoString) : GoString :=
  "Error: Torrent with hash ".toList ++ hash ++ " not found".toList

/-- The text of `err.Error()` for a failed `strconv.Atoi` (the input is
shown between plain quotes). -/
def atoiErrorText (input : GoString) : NumError → GoString
  | .errSyntax => "strconv.Atoi: parsing \"".toList ++ input ++ "\": invalid syntax".toList
  | .errRange => "strconv.Atoi: parsing \"".toList ++ input ++ "\": value out of range".toList

/-- The message for a file index outside `0..len(files)-1`. -/
def outOfRangeMsg (n : Nat) : GoString :=
  "Error: File index out of range (0-".toList ++ formatInt ((n : Int) - 1) ++ ")".toList

/-- Exported `GetStreamURL`. -/
def GetStreamURL (s : Session) (infoHash fileIndex : GoString) : Session × Reply :=
  if s.client.isNone then (s, .text "Error: Torrent client not initialized".toList)
  else
    match s.lookup infoHash with
    | none => (s, .text (notFoundMsg infoHash))
    | some _ =>
      (s, .text ("http://127.0.0.1:".toList ++ formatInt s.serverPort ++
        "/stream?hash=".toList ++ infoHash ++ "&file=".toList ++ fileIndex))

/-- The `for i, file := range filesList` loop of `getFilesList`, from index `i`. -/
def getFilesListLoop : Nat → List (Option File) → List TorrentFile
  | _, [] => []
  | i, none :: rest => getFilesListLoop (i + 1) rest
  | i, some file :: rest =>
    let displayPath :=
      if file.displayPath = [] then "Unknown_File_".toList ++ formatInt i
      else file.displayPath
    { Name := Base displayPath
      Path := displayPath
      Size := file.Length
      Index := i
      MimeType := getMimeType displayPath } :: getFilesListLoop (i + 1) rest

/-- Helper function to get list of files from a torrent. -/
def getFilesList (t : Torrent) : List TorrentFile :=
  if t.files.length = 0 then [] else getFilesListLoop 0 t.files

/-- Exported `ListTorrentFiles`. -/
def ListTorrentFiles (s : Session) (infoHash : GoString) : Session × Reply :=
  if s.client.isNone then (s, .text "Error: Torrent client not initialized".toList)
  else
    match s.lookup infoHash with
    | none => (s, .text (notFoundMsg infoHash))
    | some t => (s, .filesJSON (getFilesList t))

/-- Outcomes of the file-system calls of one `DownloadTorrentFile`: the error
text of `os.MkdirAll` on a directory, whether `os.Stat` on a path succeeds,
and the value of `foundPath` after `filepath.Walk` of a root for a base name. -/
structure FsEnv where
  mkdirAll : GoString → Option GoString
  stat : GoString → Bool
  walkFound : GoString → GoString → GoString

/-- What `DownloadTorrentFile` does besides computing its result. -/
inductive Effect where
  | mkdirAll (dir : GoString)
  | setPriorityHigh (infoHash : GoString) (fileIdx : Int)
  | monitor (infoHash : GoString) (fileIdx : Int) (destPath : GoString)
  deriving DecidableEq

/-- Exported `DownloadTorrentFile`: package state, returned string and the
effects performed, in order. The result `none` is a panic (nil file, or
`infoHashGo[:8]` on a shorter string). -/
def DownloadTorrentFile (s : Session) (fs : FsEnv) (infoHash fileIndex : GoString) :
    Option (Session × GoString × List Effect) :=
  if s.client.isNone then some (s, "Error: Torrent client not initialized".toList, [])
  else
    match s.lookup infoHash with
    | none => some (s, notFoundMsg infoHash, [])
    | some t =>
      match Atoi fileIndex with
      | (_, some e) =>
        some (s, "Error: Invalid file index: ".toList ++ atoiErrorText fileIndex e, [])
      | (fileIdx, none) =>
        if fileIndex = "null".toList ∨ fileIndex = [] then
          some (s, "Error: Invalid file index: received empty or null value".toList, [])
        else
          let files := t.files
          if fileIdx < 0 ∨ fileIdx ≥ files.length then
            some (s, outOfRangeMsg files.length, [])
          else
            match files.get? fileIdx.toNat with
            | some (some file) =>
              let fullDisplayPath := file.displayPath
              let destPath := Join s.downloadDir fullDisplayPath
              let destDir := Dir destPath
              match fs.mkdirAll destDir with
              | some e =>
                some (s, "Error creating directory structure: ".toList ++ e, [.mkdirAll destDir])
              | none =>
                let eff : List Effect := [.mkdirAll destDir, .setPriorityHigh infoHash fileIdx]
                let started := eff ++ [.monitor infoHash fileIdx destPath]
                if file.bytesCompleted = file.Length then
                  if fs.stat destPath then some (s, destPath, eff)
                  else if infoHash.length < 8 then none
                  else
                    let legacyFileName := infoHash.take 8 ++ "_".toList ++ Base fullDisplayPath
                    let legacyPath := Join s.downloadDir legacyFileName
                    if fs.stat legacyPath then some (s, legacyPath, eff)
                    else
                      let simplePath := Join s.downloadDir (Base fullDisplayPath)
                      if fs.stat simplePath then some (s, simplePath, eff)
                      else
                        let foundPath := fs.walkFound s.downloadDir (Base fullDisplayPath)
                        if foundPath ≠ [] then some (s, foundPath, eff)
                        else some (s, destPath, started)
                else some (s, destPath, started)
            | _ => none

/-- Exported `GetDownloadProgress`. The result `none` is a panic on a nil file. -/
def GetDownloadProgress (s : Session) (infoHash fileIndex : GoString) :
    Option (Session × Reply) :=
  if s.client.isNone then some (s, .text "Error: Torrent client not initialized".toList)
  else
    match s.lookup infoHash with
    | none => some (s, .text (notFoundMsg infoHash))
    | some t =>
      match Atoi fileIndex with
      | (_, some e) =>
        some (s, .text ("Error: Invalid file index: ".toList ++ atoiErrorText fileIndex e))
      | (fileIdx, none) =>
        if fileIndex = "null".toList ∨ fileIndex = [] then
          some (s, .text "Error: Invalid file index: received empty or null value".toList)
        else
          let files := t.files
          if fileIdx < 0 ∨ fileIdx ≥ files.length then
            some (s, .text (outOfRangeMsg files.length))
          else
            match files.get? fileIdx.toNat with
            | some (some file) =>
              let completed := file.bytesCompleted
              let total := file.Length
              let progress : ProgressValue :=
                if total > 0 then .percent completed total else .zero
              some (s, .progressJSON
                { Completed := completed
                  Total := total
                  Progress := progress
                  Done := decide (completed = total) && decide (total > 0) })
            | _ => none

/-- Specification helper: the value of a digit string read after an accumulator `n`. -/
def decVal (n : Nat) (ds : GoString) : Nat := ds.foldl (fun a c => a * 10 + (c.toNat - 48)) n

/-! ## Sample data -/

/-- A ten-byte file used in the concrete checks. -/
def sampleFile : File :=
  { displayPath := "show/ep1.mkv".toList, content := [10, 11, 12, 13, 14, 15, 16, 17, 18, 19],
    bytesCompleted := 10 }

/-- A 40-digit hex info-hash used in the concrete checks. -/
def sampleHash : GoString := "0123456789abcdef0123456789abcdef01234567".toList

/-- A one-file transfer used in the concrete checks. -/
def sampleTorrent : Torrent := { infoHash := sampleHash, files := [some sampleFile] }

/-- An initialised session holding `sampleTorrent`. -/
def sampleSession : Session :=
  { client := some { dataDir := "/dl".toList }, torrents := [(sampleHash, sampleTorrent)],
    downloadDir := "/dl".toList, httpServer := some { port := 8080 }, serverPort := 8080 }

/-- A file system in which `MkdirAll` succeeds and exactly the listed paths exist. -/
def fsWith (paths : List GoString) : FsEnv :=
  { mkdirAll := fun _ => none, stat := fun p => decide (p ∈ paths), walkFound := fun _ _ => [] }

/-- Specification helper: the entry `getFilesList` builds for the file at index `i`. -/
def fileEntry (i : Nat) (file : File) : TorrentFile :=
  { Name := if file.displayPath = [] then "Unknown_File_".toList ++ formatInt i
      else Base file.displayPath
    Path := if file.displayPath = [] then "Unknown_File_".toList ++ formatInt i
      else file.displayPath
    Size := file.Length
    Index := i
    MimeType := getMimeType (if file.displayPath = [] then "Unknown_File_".toList ++ formatInt i
      else file.displayPath) }

/-- A transfer with two files, the second without a display path. -/
def twoFileTorrent : Torrent :=
  { infoHash := sampleHash
    files := [some sampleFile, some { displayPath := [], content := [1, 2], bytesCompleted := 0 }] }

/-! ## Invariants and helpers of the lifecycle proofs -/

/-- The registry is empty whenever there is no engine. -/
def RegistryInv (s : Session) : Prop := s.client = none → s.torrents = []

/-- A listener implies an engine, and an engine implies a download directory. -/
def HandleInv (s : Session) : Prop :=
  (s.httpServer.isSome = true → s.client.isSome = true) ∧
    (s.client.isSome = true → s.downloadDir ≠ [])

/-- The download directory chosen by `InitTorrentClient`. -/
def initDir (cacheDir customDownloadDir : GoString) (env : InitEnv) : GoString :=
  if customDownloadDir ≠ [] then customDownloadDir
  else if env.defaultDirNotExist then Join cacheDir "torrentstreamer_downloads".toList
  else "/storage/emulated/0/Download".toList

/-- The package state once `InitTorrentClient` has torn down the old engine
and listener. -/
def tornDown (s : Session) : Session :=
  { client := none
    torrents := if s.client.isSome then [] else s.torrents
    downloadDir := s.downloadDir
    httpServer := none
    serverPort := s.serverPort }

/-- An environment in which every call of `InitTorrentClient` succeeds. -/
def okInitEnv : InitEnv :=
  { defaultDirNotExist := false, mkdirAllDownload := none, writeFile := none,
    mkdirAllData := none, newClient := none, listenOk := fun _ => true }

/-! ## Lemmas on the string and number functions -/

theorem digitChar_spec : ∀ d, d < 10 → isDigit (digitChar d) = true ∧ (digitChar d).toNat - 48 = d := by
  decide

theorem isDigit_ne_dash {c : Char} (h : isDigit c = true) : c ≠ '-' := by
  rintro rfl; exact absurd h (by decide)

theorem isDigit_ne_plus {c : Char} (h : isDigit c = true) : c ≠ '+' := by
  rintro rfl; exact absurd h (by decide)

theorem isDigit_ne_slash {c : Char} (h : isDigit c = true) : c ≠ '/' := by
  rintro rfl; exact absurd h (by decide)

theorem isDigit_toNat_lt {c : Char} (h : isDigit c = true) : c.toNat - 48 < 10 := by
  simp only [isDigit, Bool.and_eq_true, decide_eq_true_eq] at h
  omega


theorem decVal_cons (n : Nat) (c : Char) (cs : GoString) :
    decVal n (c :: cs) = decVal (n * 10 + (c.toNat - 48)) cs := rfl

theorem decVal_append (n : Nat) (a b : GoString) : decVal n (a ++ b) = decVal (decVal n a) b := by
  simp [decVal, List.foldl_append]

theorem le_decVal (n : Nat) (ds : GoString) : n ≤ decVal n ds := by
  induction ds generalizing n with
  | nil => simp [decVal]
  | cons c cs ih =>
    rw [decVal_cons]
    exact le_trans (by omega) (ih _)

theorem parseUintLoop_digits (ds : GoString) (hd : ∀ c ∈ ds, isDigit c = true) :
    ∀ n, n < 18446744073709551616 →
      parseUintLoop n ds =
        if decVal n ds < 18446744073709551616 then (decVal n ds, none)
        else (maxUint64, some NumError.errRange) := by
  induction ds with
  | nil => intro n hn; simp [parseUintLoop, decVal, hn]
  | cons c cs ih =>
    intro n hn
    have hc : isDigit c = true := hd c (List.mem_cons_self _ _)
    have hcs : ∀ x ∈ cs, isDigit x = true := fun x hx => hd x (List.mem_cons_of_mem _ hx)
    have hlt := isDigit_toNat_lt hc
    have hge := le_decVal (n * 10 + (c.toNat - 48)) cs
    rw [decVal_cons]
    simp only [parseUintLoop, hc, if_true, maxUint64]
    by_cases h1 : n ≥ 18446744073709551615 / 10 + 1
    · rw [if_pos h1, if_neg (by omega)]
    · rw [if_neg h1]
      have hn10 : n * 10 % 18446744073709551616 = n * 10 := Nat.mod_eq_of_lt (by omega)
      rw [hn10]
      by_cases h2 : n * 10 + (c.toNat - 48) < 18446744073709551616
      · rw [Nat.mod_eq_of_lt h2, if_neg (by omega)]
        exact ih hcs _ h2
      · have : (n * 10 + (c.toNat - 48)) % 18446744073709551616
            = n * 10 + (c.toNat - 48) - 18446744073709551616 := by omega
        rw [this, if_pos (by omega), if_neg (by omega)]


theorem formatUintFuel_spec (fuel : Nat) : ∀ n, n ≤ fuel →
    (∀ c ∈ formatUintFuel fuel n, isDigit c = true) ∧ decVal 0 (formatUintFuel fuel n) = n ∧
      formatUintFuel fuel n ≠ [] := by
  induction fuel with
  | zero =>
    intro n hn
    have : n = 0 := by omega
    subst this
    decide
  | succ k ih =>
    intro n hn
    unfold formatUintFuel
    by_cases h : n < 10
    · rw [if_pos h]
      have := digitChar_spec n h
      refine ⟨?_, ?_, by simp⟩
      · intro c hc
        rw [List.mem_singleton] at hc
        rw [hc]; exact this.1
      · simp [decVal, this.2]
    · rw [if_neg h]
      have hrec := ih (n / 10) (by omega)
      have hd := digitChar_spec (n % 10) (Nat.mod_lt _ (by decide))
      refine ⟨?_, ?_, by simp⟩
      · intro c hc
        rw [List.mem_append, List.mem_singleton] at hc
        rcases hc with hc | hc
        · exact hrec.1 c hc
        · rw [hc]; exact hd.1
      · rw [decVal_append, hrec.2.1]
        simp only [decVal, List.foldl_cons, List.foldl_nil, hd.2]
        omega

theorem formatUint_digits (n : Nat) : ∀ c ∈ formatUint n, isDigit c = true :=
  (formatUintFuel_spec n n le_rfl).1

theorem decVal_formatUint (n : Nat) : decVal 0 (formatUint n) = n :=
  (formatUintFuel_spec n n le_rfl).2.1

theorem formatUint_ne_nil (n : Nat) : formatUint n ≠ [] :=
  (formatUintFuel_spec n n le_rfl).2.2

theorem formatInt_natCast (n : Nat) : formatInt (n : Int) = formatUint n := by
  simp [formatInt]

/-- `ParseInt` on a non-empty string of decimal digits: the value read,
saturated at `maxInt64`. -/
theorem ParseInt_digits (ds : GoString) (hne : ds ≠ []) (hd : ∀ c ∈ ds, isDigit c = true) :
    (ParseInt ds).1 = min (decVal 0 ds : Int) maxInt64 := by
  cases ds with
  | nil => exact absurd rfl hne
  | cons c cs =>
    have hc : isDigit c = true := hd c (List.mem_cons_self _ _)
    have h1 : c ≠ '-' := isDigit_ne_dash hc
    have h2 : c ≠ '+' := isDigit_ne_plus hc
    have hloop := parseUintLoop_digits (c :: cs) hd 0 (by decide)
    simp only [ParseInt, h1, h2, or_self, if_false, ParseUint, hloop]
    by_cases hv : decVal 0 (c :: cs) < 18446744073709551616
    · simp only [hv, if_true, maxInt64]
      by_cases hv2 : decVal 0 (c :: cs) ≥ 9223372036854775808
      · simp [hv2]; omega
      · simp [hv2]; omega
    · simp only [hv, if_false, maxInt64, maxUint64]
      simp
      omega

theorem ParseInt_formatUint (n : Nat) : (ParseInt (formatUint n)).1 = min (n : Int) maxInt64 := by
  rw [ParseInt_digits _ (formatUint_ne_nil n) (formatUint_digits n), decVal_formatUint]

theorem stringsSplit_no_sep (sep : Char) (a : GoString) (ha : sep ∉ a) :
    stringsSplit sep a = [a] := by
  induction a with
  | nil => rfl
  | cons c cs ih =>
    have hc : c ≠ sep := fun h => ha (h ▸ List.mem_cons_self _ _)
    have hcs : sep ∉ cs := fun h => ha (List.mem_cons_of_mem _ h)
    simp [stringsSplit, hc, ih hcs]

theorem stringsSplit_two (sep : Char) (a b : GoString) (ha : sep ∉ a) (hb : sep ∉ b) :
    stringsSplit sep (a ++ sep :: b) = [a, b] := by
  induction a with
  | nil => simp [stringsSplit, stringsSplit_no_sep sep b hb]
  | cons c cs ih =>
    have hc : c ≠ sep := fun h => ha (h ▸ List.mem_cons_self _ _)
    have hcs : sep ∉ cs := fun h => ha (List.mem_cons_of_mem _ h)
    simp [stringsSplit, hc, ih hcs]

theorem dash_not_mem_formatUint (n : Nat) : '-' ∉ formatUint n :=
  fun h => isDigit_ne_dash (formatUint_digits n _ h) rfl

theorem bytesPrefix_eq : "bytes=".toList = ['b', 'y', 't', 'e', 's', '='] := rfl

/-- The range computed for a header `bytes=<a>-<b>` whose parts hold no dash. -/
theorem parseRange_bytes (a b : GoString) (ha : '-' ∉ a) (hb : '-' ∉ b) (length : Int) :
    parseRange ("bytes=".toList ++ a ++ "-".toList ++ b) length =
      { start := (ParseInt a).1
        stop :=
          if (if b ≠ [] then (ParseInt b).1 else length - 1) ≥ length then length - 1
          else (if b ≠ [] then (ParseInt b).1 else length - 1)
        partialContent := true } := by
  have hdash : "-".toList = ['-'] := rfl
  rw [bytesPrefix_eq, hdash]
  simp only [parseRange, hasPrefix]
  simp [stringsSplit_two '-' a b ha hb]

theorem wrapInt64_of_bounds (x : Int) (h1 : -9223372036854775808 ≤ x)
    (h2 : x < 9223372036854775808) : wrapInt64 x = x := by
  unfold wrapInt64; omega

theorem Atoi_ok_ne_nil {fileStr : GoString} {i : Int} (h : Atoi fileStr = (i, none)) :
    fileStr ≠ [] := by
  rintro rfl
  simp [Atoi, ParseInt] at h

theorem streamHandler_serves (s : Session) (hash fileStr range : GoString) (t : Torrent)
    (file : File) (idx : Nat) (hhash : hash ≠ []) (hreg : s.lookup hash = some t)
    (hidx : Atoi fileStr = ((idx : Int), none)) (hfile : t.files.get? idx = some (some file)) :
    streamHandler s { hash := hash, file := fileStr, range := range } =
      some (.stream (streamResponseOf file (parseRange range file.Length))) := by
  have hne := Atoi_ok_ne_nil hidx
  have hlt : idx < t.files.length := by
    rcases Nat.lt_or_ge idx t.files.length with h | h
    · exact h
    · rw [List.get?_eq_none.mpr h] at hfile; cases hfile
  simp only [streamHandler, hhash, hne, or_self, if_false, hreg, hidx]
  rw [if_neg (by omega)]
  simp only [Int.toNat_ofNat, hfile]

/-! ## Range requests -/

theorem parseRange_decimal (start stop : Nat) (length : Int)
    (hs : (start : Int) < 9223372036854775808) :
    parseRange ("bytes=".toList ++ formatInt start ++ "-".toList ++ formatInt stop) length =
      { start := start
        stop := if min (stop : Int) maxInt64 ≥ length then length - 1 else min (stop : Int) maxInt64
        partialContent := true } := by
  rw [formatInt_natCast, formatInt_natCast,
    parseRange_bytes _ _ (dash_not_mem_formatUint start) (dash_not_mem_formatUint stop),
    ParseInt_formatUint, ParseInt_formatUint]
  simp only [ne_eq, formatUint_ne_nil, not_false_eq_true, if_true, maxInt64]
  congr 1
  omega

/-- C1: a request for a registered hash and a valid file index whose header
is `Range: bytes=<start>-<end>` in decimal, with `0 <= start <= end < total`,
is answered with status 206 and `Content-Range: bytes <start>-<end>/<total>`;
the reader stands at `start` when the copy begins, the copy is asked for
`end-start+1` bytes and writes exactly the bytes `start..end` of the file. -/
theorem streamHandler_range_request (s : Session) (hash fileStr : GoString) (t : Torrent)
    (file : File) (idx start stop : Nat) (hhash : hash ≠ []) (hreg : s.lookup hash = some t)
    (hidx : Atoi fileStr = ((idx : Int), none)) (hfile : t.files.get? idx = some (some file))
    (hint : file.Length < 9223372036854775808)
    (hse : start ≤ stop) (hst : (stop : Int) < file.Length) :
    ∃ r : StreamResponse,
      streamHandler s
          { hash := hash
            file := fileStr
            range := "bytes=".toList ++ formatInt start ++ "-".toList ++ formatInt stop } =
        some (.stream r) ∧
      r.status = 206 ∧
      r.contentRange = some ("bytes ".toList ++ formatInt start ++ "-".toList ++
        formatInt stop ++ "/".toList ++ formatInt file.Length) ∧
      r.readerPos = start ∧
      r.copyCount = (stop : Int) - start + 1 ∧
      r.body = (file.content.drop start).take (stop - start + 1) ∧
      r.body.length = stop - start + 1 := by
  have hrg := parseRange_decimal start stop file.Length (by omega)
  have hstop : (if min (stop : Int) maxInt64 ≥ file.Length then file.Length - 1
      else min (stop : Int) maxInt64) = stop := by
    simp only [maxInt64]
    have : min (stop : Int) 9223372036854775807 = stop := by omega
    rw [this, if_neg (by omega)]
  rw [hstop] at hrg
  have hcount : wrapInt64 ((stop : Int) - start + 1) = (stop : Int) - start + 1 :=
    wrapInt64_of_bounds _ (by omega) (by omega)
  have hpos : (if (start : Int) > 0 then (start : Int) else 0) = start := by
    split <;> omega
  have hlen : stop < file.content.length := by
    unfold File.Length at hst; omega
  refine ⟨_, streamHandler_serves s hash fileStr _ t file idx hhash hreg hidx hfile, ?_⟩
  rw [hrg]
  simp only [streamResponseOf, if_true, hcount, hpos, copyN, Int.toNat_ofNat, true_and]
  have hn : ((stop : Int) - start + 1).toNat = stop - start + 1 := by omega
  rw [hn]
  refine ⟨rfl, ?_⟩
  rw [List.length_take, List.length_drop]
  omega

theorem streamHandler_range_request_witness :
    ∃ r : StreamResponse,
      streamHandler sampleSession
          { hash := sampleHash
            file := "0".toList
            range := "bytes=".toList ++ formatInt (2 : Nat) ++ "-".toList ++ formatInt (5 : Nat) } =
        some (.stream r) ∧
      r.status = 206 ∧
      r.contentRange = some ("bytes ".toList ++ formatInt (2 : Nat) ++ "-".toList ++
        formatInt (5 : Nat) ++ "/".toList ++ formatInt sampleFile.Length) ∧
      r.readerPos = (2 : Nat) ∧
      r.copyCount = ((5 : Nat) : Int) - (2 : Nat) + 1 ∧
      r.body = (sampleFile.content.drop 2).take (5 - 2 + 1) ∧
      r.body.length = 5 - 2 + 1 :=
  streamHandler_range_request sampleSession sampleHash "0".toList sampleTorrent sampleFile 0 2 5
    (by decide) (by decide) (by decide) (by decide) (by decide) (by decide) (by decide)

theorem parseRange_open (start : Nat) (length : Int)
    (hs : (start : Int) < 9223372036854775808) :
    parseRange ("bytes=".toList ++ formatInt start ++ "-".toList) length =
      { start := start, stop := length - 1, partialContent := true } := by
  have h := parseRange_bytes (formatInt start) [] (by
    rw [formatInt_natCast]; exact dash_not_mem_formatUint start) (by simp) length
  rw [List.append_nil] at h
  rw [h, formatInt_natCast, ParseInt_formatUint]
  simp only [ne_eq, not_true_eq_false, if_false, maxInt64]
  congr 1
  · omega
  · rw [if_neg (by omega)]

/-- C2: for a file of `total > 0` bytes and `0 <= start < total`, a request
whose header is `bytes=<start>-` or `bytes=<start>-<end>` with `end >= total`
is served with `end = total-1`: the `Content-Range` is
`bytes <start>-<total-1>/<total>`, and the copy writes exactly the
`total-start` bytes of the file from offset `start`. -/
theorem streamHandler_open_or_clamped (s : Session) (hash fileStr hdr : GoString) (t : Torrent)
    (file : File) (idx start : Nat) (hhash : hash ≠ []) (hreg : s.lookup hash = some t)
    (hidx : Atoi fileStr = ((idx : Int), none)) (hfile : t.files.get? idx = some (some file))
    (hint : file.Length < 9223372036854775808)
    (hpos : 0 < file.Length) (hst : (start : Int) < file.Length)
    (hhdr : hdr = "bytes=".toList ++ formatInt start ++ "-".toList ∨
      ∃ stop : Nat, file.Length ≤ (stop : Int) ∧
        hdr = "bytes=".toList ++ formatInt start ++ "-".toList ++ formatInt stop) :
    ∃ r : StreamResponse,
      streamHandler s { hash := hash, file := fileStr, range := hdr } = some (.stream r) ∧
      r.status = 206 ∧
      r.contentRange = some ("bytes ".toList ++ formatInt start ++ "-".toList ++
        formatInt (file.Length - 1) ++ "/".toList ++ formatInt file.Length) ∧
      r.readerPos = start ∧
      r.copyCount = file.Length - start ∧
      r.body = file.content.drop start ∧
      (r.body.length : Int) = file.Length - start := by
  have hrg : parseRange hdr file.Length =
      { start := start, stop := file.Length - 1, partialContent := true } := by
    rcases hhdr with h | ⟨stop, hge, h⟩
    · rw [h]; exact parseRange_open start file.Length (by omega)
    · rw [h, parseRange_decimal start stop file.Length (by omega)]
      simp only [maxInt64]
      congr 1
      rw [if_pos (by omega)]
  have hcount : wrapInt64 (file.Length - 1 - start + 1) = file.Length - start := by
    rw [wrapInt64_of_bounds _ (by omega) (by omega)]; omega
  have hp : (if (start : Int) > 0 then (start : Int) else 0) = start := by
    split <;> omega
  refine ⟨_, streamHandler_serves s hash fileStr _ t file idx hhash hreg hidx hfile, ?_⟩
  rw [hrg]
  simp only [streamResponseOf, if_true, hcount, hp, copyN, Int.toNat_ofNat, true_and]
  have hlen : file.Length = (file.content.length : Int) := rfl
  have hn : (file.Length - (start : Int)).toNat = file.content.length - start := by omega
  rw [hn]
  refine ⟨?_, ?_⟩
  · rw [List.take_of_length_le]
    rw [List.length_drop]
  · rw [List.length_take, List.length_drop]
    omega

theorem streamHandler_open_or_clamped_witness :
    ∃ r : StreamResponse,
      streamHandler sampleSession
          { hash := sampleHash
            file := "0".toList
            range := "bytes=".toList ++ formatInt (4 : Nat) ++ "-".toList ++
              formatInt (25 : Nat) } =
        some (.stream r) ∧
      r.status = 206 ∧
      r.contentRange = some ("bytes ".toList ++ formatInt (4 : Nat) ++ "-".toList ++
        formatInt (sampleFile.Length - 1) ++ "/".toList ++ formatInt sampleFile.Length) ∧
      r.readerPos = (4 : Nat) ∧
      r.copyCount = sampleFile.Length - (4 : Nat) ∧
      r.body = sampleFile.content.drop 4 ∧
      (r.body.length : Int) = sampleFile.Length - (4 : Nat) :=
  streamHandler_open_or_clamped sampleSession sampleHash "0".toList _ sampleTorrent sampleFile
    0 4 (by decide) (by decide) (by decide) (by decide) (by decide) (by decide) (by decide)
    (Or.inr ⟨25, by decide, rfl⟩)

theorem ParseInt_bounds (s : GoString) :
    -9223372036854775808 ≤ (ParseInt s).1 ∧ (ParseInt s).1 ≤ 9223372036854775807 := by
  cases s with
  | nil => simp [ParseInt]
  | cons c cs =>
    simp only [ParseInt]
    generalize ParseUint (if c = '+' ∨ c = '-' then cs else c :: cs) = p
    rcases p with ⟨un, e⟩
    by_cases hneg : c = '-'
    · rcases e with _ | e
      · simp only [hneg, maxInt64, not_true_eq_false, false_and, if_false, true_and, if_true]
        split_ifs <;> simp only <;> omega
      · cases e
        · simp
        · simp only [hneg, maxInt64, not_true_eq_false, false_and, if_false, true_and, if_true]
          split_ifs <;> simp only <;> omega
    · rcases e with _ | e
      · simp only [hneg, maxInt64, not_false_eq_true, false_and, if_false, true_and]
        split_ifs <;> simp only <;> omega
      · cases e
        · simp
        · simp only [hneg, maxInt64, not_false_eq_true, false_and, if_false, true_and]
          split_ifs <;> simp only <;> omega

theorem ParseInt_nonneg (s : GoString) (hs : '-' ∉ s) : 0 ≤ (ParseInt s).1 := by
  cases s with
  | nil => simp [ParseInt]
  | cons c cs =>
    have hneg : c ≠ '-' := fun h => hs (h ▸ List.mem_cons_self _ _)
    simp only [ParseInt]
    generalize ParseUint (if c = '+' ∨ c = '-' then cs else c :: cs) = p
    rcases p with ⟨un, e⟩
    rcases e with _ | e
    · simp only [hneg, maxInt64, not_false_eq_true, false_and, if_false, true_and]
      split_ifs <;> simp only <;> omega
    · cases e
      · simp
      · simp only [hneg, maxInt64, not_false_eq_true, false_and, if_false, true_and]
        split_ifs <;> simp only <;> omega

theorem ParseInt_syntax_zero (s : GoString) (h : (ParseInt s).2 = some NumError.errSyntax) :
    (ParseInt s).1 = 0 := by
  cases s with
  | nil => simp [ParseInt]
  | cons c cs =>
    revert h
    simp only [ParseInt]
    generalize ParseUint (if c = '+' ∨ c = '-' then cs else c :: cs) = p
    rcases p with ⟨un, e⟩
    rcases e with _ | e
    · simp only
      split_ifs <;> simp
    · cases e
      · simp
      · simp only
        split_ifs <;> simp

theorem stringsSplit_parts_no_sep (sep : Char) (s : GoString) :
    ∀ p ∈ stringsSplit sep s, sep ∉ p := by
  induction s with
  | nil => simp [stringsSplit]
  | cons c cs ih =>
    unfold stringsSplit
    by_cases hc : c = sep
    · rw [if_pos hc]
      intro p hp
      rcases List.mem_cons.mp hp with h | h
      · rw [h]; simp
      · exact ih p h
    · rw [if_neg hc]
      cases hsp : stringsSplit sep cs with
      | nil => 
        intro p hp
        simp only [List.mem_singleton] at hp
        rw [hp]
        simp [Ne.symm hc]
      | cons q qs =>
        rw [hsp] at ih
        intro p hp
        rcases List.mem_cons.mp hp with h | h
        · rw [h]
          intro hmem
          rcases List.mem_cons.mp hmem with h1 | h1
          · exact hc h1.symm
          · exact ih q (List.mem_cons_self _ _) h1
        · exact ih p (List.mem_cons_of_mem _ h)

/-- Without the `bytes=` prefix, or with a remainder that does not split in
two, the header sets neither the status 206 nor a range start. -/
theorem parseRange_unrecognised (hdr : GoString) (length : Int)
    (h : hasPrefix hdr "bytes=".toList = false ∨ (stringsSplit '-' (hdr.drop 6)).length ≠ 2) :
    (parseRange hdr length).partialContent = false ∧ (parseRange hdr length).start = 0 := by
  unfold parseRange
  by_cases hne : hdr ≠ []
  · rw [if_pos hne]
    by_cases hp : hasPrefix hdr "bytes=".toList = true
    · rw [if_pos hp]
      rcases h with h | h
      · rw [hp] at h; cases h
      · rcases hsp : stringsSplit '-' (List.drop 6 hdr) with _ | ⟨p0, _ | ⟨p1, _ | ⟨p2, ps⟩⟩⟩
        · simp [hsp]
        · simp [hsp]
        · rw [hsp] at h; simp at h
        · simp [hsp]
    · rw [if_neg hp]; simp
  · rw [if_neg hne]; simp

theorem parseRange_bounds (hdr : GoString) (length : Int) (hpos : 0 < length) :
    0 ≤ (parseRange hdr length).start ∧ (parseRange hdr length).start ≤ 9223372036854775807 ∧
      0 ≤ (parseRange hdr length).stop ∧ (parseRange hdr length).stop ≤ length - 1 ∧
      ((parseRange hdr length).partialContent = false →
        (parseRange hdr length).start ≤ (parseRange hdr length).stop) := by
  unfold parseRange
  by_cases hne : hdr ≠ []
  · rw [if_pos hne]
    by_cases hp : hasPrefix hdr "bytes=".toList = true
    · rw [if_pos hp]
      have hparts := stringsSplit_parts_no_sep '-' (List.drop 6 hdr)
      rcases hsp : stringsSplit '-' (List.drop 6 hdr) with _ | ⟨p0, _ | ⟨p1, _ | ⟨p2, ps⟩⟩⟩
      · simp [hsp]; omega
      · simp [hsp]; omega
      · rw [hsp] at hparts
        simp only [hsp]
        have h0 := ParseInt_nonneg p0 (hparts p0 (by simp))
        have h1 := ParseInt_nonneg p1 (hparts p1 (by simp))
        have hb := ParseInt_bounds p0
        refine ⟨h0, hb.2, ?_, ?_, by simp⟩
        · split_ifs <;> omega
        · split_ifs <;> omega
      · simp [hsp]; omega
    · rw [if_neg hp]; simp; omega
  · rw [if_neg hne]; simp; omega

/-- C3, the claim as stated fails: for the ten-byte sample file, the header
`bytes=x-5`, whose start is not a decimal integer, is answered with status
206 and `Content-Range: bytes 0-5/10`, and six bytes are copied, where the
claim has status 200, no `Content-Range` and the whole ten bytes. -/
theorem streamHandler_unparsable_start_counterexample :
    sampleFile.Length = 10 ∧
      streamHandler sampleSession
          { hash := sampleHash, file := "0".toList, range := "bytes=x-5".toList } =
        some (.stream
          { status := 206
            contentType := "video/x-matroska".toList
            contentLength := "10".toList
            acceptRanges := "bytes".toList
            contentRange := some "bytes 0-5/10".toList
            readerPos := 0
            copyCount := 6
            body := [10, 11, 12, 13, 14, 15] }) := by
  decide

/-- C3 (as amended): for a registered hash and a valid file index, a header
that lacks the `bytes=` prefix, or whose remainder does not split into
exactly two parts around `-`, is answered with status 200 and no
`Content-Range`. A header `bytes=<a>-<b>` that does split in two is answered
with status 206 and `Content-Range: bytes <s>-<e>/<total>` also when `a` or
`b` is not a decimal integer: `s` is the value `ParseInt` returns for `a`
with its error dropped, `e` the one for a non-empty `b` (else `total-1`),
lowered to `total-1` when it is `total` or more; a part with a syntax error
counts as 0. -/
theorem streamHandler_unrecognised_range (s : Session) (hash fileStr hdr : GoString)
    (t : Torrent) (file : File) (idx : Nat) (hhash : hash ≠ [])
    (hreg : s.lookup hash = some t) (hidx : Atoi fileStr = ((idx : Int), none))
    (hfile : t.files.get? idx = some (some file)) :
    ∃ r : StreamResponse,
      streamHandler s { hash := hash, file := fileStr, range := hdr } = some (.stream r) ∧
      ((hasPrefix hdr "bytes=".toList = false ∨ (stringsSplit '-' (hdr.drop 6)).length ≠ 2) →
        r.status = 200 ∧ r.contentRange = none) ∧
      (∀ a b : GoString, hdr = "bytes=".toList ++ a ++ "-".toList ++ b → '-' ∉ a → '-' ∉ b →
        r.status = 206 ∧
        r.contentRange = some ("bytes ".toList ++ formatInt (ParseInt a).1 ++ "-".toList ++
          formatInt (min (if b = [] then file.Length - 1 else (ParseInt b).1) (file.Length - 1))
          ++ "/".toList ++ formatInt file.Length) ∧
        ((ParseInt a).2 = some NumError.errSyntax → (ParseInt a).1 = 0) ∧
        ((ParseInt b).2 = some NumError.errSyntax → (ParseInt b).1 = 0)) := by
  refine ⟨_, streamHandler_serves s hash fileStr hdr t file idx hhash hreg hidx hfile, ?_, ?_⟩
  · intro h
    have hu := parseRange_unrecognised hdr file.Length h
    simp [streamResponseOf, hu.1]
  · intro a b hab ha hb
    subst hab
    rw [parseRange_bytes a b ha hb]
    refine ⟨by simp [streamResponseOf], ?_, ParseInt_syntax_zero a, ParseInt_syntax_zero b⟩
    simp only [streamResponseOf, if_true, ne_eq, ite_not]
    congr 5
    by_cases hbn : b = []
    · simp [hbn]
    · simp only [hbn, if_false]
      split_ifs with h1
      · omega
      · omega

theorem streamHandler_unrecognised_range_witness :
    ∃ r : StreamResponse,
      streamHandler sampleSession
          { hash := sampleHash, file := "0".toList, range := "bytes=5-abc".toList } =
        some (.stream r) ∧
      ((hasPrefix "bytes=5-abc".toList "bytes=".toList = false ∨
          (stringsSplit '-' ("bytes=5-abc".toList.drop 6)).length ≠ 2) →
        r.status = 200 ∧ r.contentRange = none) ∧
      (∀ a b : GoString, "bytes=5-abc".toList = "bytes=".toList ++ a ++ "-".toList ++ b →
        '-' ∉ a → '-' ∉ b →
        r.status = 206 ∧
        r.contentRange = some ("bytes ".toList ++ formatInt (ParseInt a).1 ++ "-".toList ++
          formatInt (min (if b = [] then sampleFile.Length - 1 else (ParseInt b).1)
            (sampleFile.Length - 1))
          ++ "/".toList ++ formatInt sampleFile.Length) ∧
        ((ParseInt a).2 = some NumError.errSyntax → (ParseInt a).1 = 0) ∧
        ((ParseInt b).2 = some NumError.errSyntax → (ParseInt b).1 = 0)) :=
  streamHandler_unrecognised_range sampleSession sampleHash "0".toList "bytes=5-abc".toList
    sampleTorrent sampleFile 0 (by decide) (by decide) (by decide) (by decide)

/-- C10, the claim as stated fails: for the ten-byte sample file the header
`bytes=5-3` gives `start = 5 > end = 3`; the count passed to the copy is -1
and nothing is written. -/
theorem streamHandler_start_after_end_counterexample :
    sampleFile.Length = 10 ∧
      parseRange "bytes=5-3".toList sampleFile.Length =
        { start := 5, stop := 3, partialContent := true } ∧
      streamHandler sampleSession
          { hash := sampleHash, file := "0".toList, range := "bytes=5-3".toList } =
        some (.stream
          { status := 206
            contentType := "video/x-matroska".toList
            contentLength := "10".toList
            acceptRanges := "bytes".toList
            contentRange := some "bytes 5-3/10".toList
            readerPos := 5
            copyCount := -1
            body := [] }) := by
  decide

/-- C10 (as amended): for every `Range` header value, present or not, and
every file of `0 < total < 2^63` bytes, the `start` and `end` the handler
uses satisfy `0 <= start` and `0 <= end <= total-1`; the reader stands at
`start`, the count passed to the copy is `end-start+1` (no overflow) and is
at most `total`. `start <= end`, and then a count of at least 1, holds
whenever the header is absent or not recognised as a range, but not for
every recognised one; when the count is not positive nothing is copied. -/
theorem streamHandler_range_bounds (s : Session) (hash fileStr hdr : GoString)
    (t : Torrent) (file : File) (idx : Nat) (hhash : hash ≠ [])
    (hreg : s.lookup hash = some t) (hidx : Atoi fileStr = ((idx : Int), none))
    (hfile : t.files.get? idx = some (some file))
    (hint : file.Length < 9223372036854775808) (hpos : 0 < file.Length) :
    ∃ r : StreamResponse,
      streamHandler s { hash := hash, file := fileStr, range := hdr } = some (.stream r) ∧
      0 ≤ (parseRange hdr file.Length).start ∧
      0 ≤ (parseRange hdr file.Length).stop ∧
      (parseRange hdr file.Length).stop ≤ file.Length - 1 ∧
      r.readerPos = (parseRange hdr file.Length).start ∧
      r.copyCount = (parseRange hdr file.Length).stop - (parseRange hdr file.Length).start + 1 ∧
      r.copyCount ≤ file.Length ∧
      ((parseRange hdr file.Length).start ≤ (parseRange hdr file.Length).stop →
        1 ≤ r.copyCount) ∧
      ((parseRange hdr file.Length).partialContent = false →
        (parseRange hdr file.Length).start ≤ (parseRange hdr file.Length).stop) ∧
      (r.copyCount ≤ 0 → r.body = []) := by
  obtain ⟨h0, hmax, h1, h2, h3⟩ := parseRange_bounds hdr file.Length hpos
  have hcount : wrapInt64 ((parseRange hdr file.Length).stop -
      (parseRange hdr file.Length).start + 1) =
      (parseRange hdr file.Length).stop - (parseRange hdr file.Length).start + 1 :=
    wrapInt64_of_bounds _ (by omega) (by omega)
  refine ⟨_, streamHandler_serves s hash fileStr hdr t file idx hhash hreg hidx hfile,
    h0, h1, h2, ?_, ?_, ?_, ?_, h3, ?_⟩
  · simp only [streamResponseOf]
    split <;> omega
  · simp only [streamResponseOf, hcount]
  · simp only [streamResponseOf, hcount]; omega
  · intro hle
    simp only [streamResponseOf, hcount]; omega
  · simp only [streamResponseOf, hcount, copyN]
    intro hle
    have : ((parseRange hdr file.Length).stop - (parseRange hdr file.Length).start + 1).toNat
        = 0 := by omega
    rw [this, List.take_zero]

theorem streamHandler_range_bounds_witness :
    ∃ r : StreamResponse,
      streamHandler sampleSession
          { hash := sampleHash, file := "0".toList, range := "bytes=20-".toList } =
        some (.stream r) ∧
      0 ≤ (parseRange "bytes=20-".toList sampleFile.Length).start ∧
      0 ≤ (parseRange "bytes=20-".toList sampleFile.Length).stop ∧
      (parseRange "bytes=20-".toList sampleFile.Length).stop ≤ sampleFile.Length - 1 ∧
      r.readerPos = (parseRange "bytes=20-".toList sampleFile.Length).start ∧
      r.copyCount = (parseRange "bytes=20-".toList sampleFile.Length).stop -
        (parseRange "bytes=20-".toList sampleFile.Length).start + 1 ∧
      r.copyCount ≤ sampleFile.Length ∧
      ((parseRange "bytes=20-".toList sampleFile.Length).start ≤
          (parseRange "bytes=20-".toList sampleFile.Length).stop →
        1 ≤ r.copyCount) ∧
      ((parseRange "bytes=20-".toList sampleFile.Length).partialContent = false →
        (parseRange "bytes=20-".toList sampleFile.Length).start ≤
          (parseRange "bytes=20-".toList sampleFile.Length).stop) ∧
      (r.copyCount ≤ 0 → r.body = []) :=
  streamHandler_range_bounds sampleSession sampleHash "0".toList "bytes=20-".toList
    sampleTorrent sampleFile 0 (by decide) (by decide) (by decide) (by decide) (by decide)
    (by decide)

/-! ## Progress tracker -/

theorem Atoi_ok_ne_null {fileStr : GoString} {i : Int} (h : Atoi fileStr = (i, none)) :
    fileStr ≠ "null".toList := by
  rintro rfl
  have h2 : (Atoi "null".toList).2 = some NumError.errSyntax := by decide
  rw [h] at h2
  cases h2

theorem get?_some_lt {α : Type} {l : List α} {i : Nat} {x : α} (h : l.get? i = some x) :
    i < l.length := by
  rcases Nat.lt_or_ge i l.length with hlt | hge
  · exact hlt
  · rw [List.get?_eq_none.mpr hge] at h; cases h

/-- `GetDownloadProgress` for a registered hash and a valid file index. -/
theorem GetDownloadProgress_serves (s : Session) (hash fileStr : GoString) (t : Torrent)
    (file : File) (idx : Nat) (hcl : s.client.isSome = true) (hreg : s.lookup hash = some t)
    (hidx : Atoi fileStr = ((idx : Int), none)) (hfile : t.files.get? idx = some (some file)) :
    GetDownloadProgress s hash fileStr =
      some (s, .progressJSON
        { Completed := file.bytesCompleted
          Total := file.Length
          Progress :=
            if file.Length > 0 then .percent file.bytesCompleted file.Length else .zero
          Done := decide (file.bytesCompleted = file.Length) && decide (file.Length > 0) }) := by
  have hne := Atoi_ok_ne_nil hidx
  have hnull := Atoi_ok_ne_null hidx
  have hlt := get?_some_lt hfile
  have hcn : s.client.isNone = false := by
    cases hc : s.client with
    | none => rw [hc] at hcl; cases hcl
    | some c => rfl
  simp only [GetDownloadProgress, hcn, Bool.false_eq_true, if_false, hreg, hidx, hne, hnull,
    or_self]
  rw [if_neg (by omega)]
  simp only [Int.toNat_ofNat, hfile]

/-- C4: for a registered hash and a valid file index, the reply of
`GetDownloadProgress` carries `completed` and `total` of the file; its `done`
field is true if and only if `completed == total` and `total > 0`; and when
`total == 0` the progress is the literal 0 and `done` is false. -/
theorem GetDownloadProgress_done_iff (s : Session) (hash fileStr : GoString) (t : Torrent)
    (file : File) (idx : Nat) (hcl : s.client.isSome = true) (hreg : s.lookup hash = some t)
    (hidx : Atoi fileStr = ((idx : Int), none)) (hfile : t.files.get? idx = some (some file)) :
    ∃ r : ProgressResponse,
      GetDownloadProgress s hash fileStr = some (s, .progressJSON r) ∧
      r.Completed = file.bytesCompleted ∧ r.Total = file.Length ∧
      (r.Done = true ↔ (r.Completed = r.Total ∧ r.Total > 0)) ∧
      (r.Total = 0 → r.Progress = ProgressValue.zero ∧ r.Done = false) := by
  refine ⟨_, GetDownloadProgress_serves s hash fileStr t file idx hcl hreg hidx hfile,
    rfl, rfl, ?_, ?_⟩
  · simp
  · intro h0
    simp only at h0
    simp [h0]

theorem GetDownloadProgress_done_iff_witness :
    ∃ r : ProgressResponse,
      GetDownloadProgress sampleSession sampleHash "0".toList =
        some (sampleSession, .progressJSON r) ∧
      r.Completed = sampleFile.bytesCompleted ∧ r.Total = sampleFile.Length ∧
      (r.Done = true ↔ (r.Completed = r.Total ∧ r.Total > 0)) ∧
      (r.Total = 0 → r.Progress = ProgressValue.zero ∧ r.Done = false) :=
  GetDownloadProgress_done_iff sampleSession sampleHash "0".toList sampleTorrent sampleFile 0
    (by decide) (by decide) (by decide) (by decide)

/-! ## Download resolver -/

theorem isNone_of_isSome {α : Type} {o : Option α} (h : o.isSome = true) : o.isNone = false := by
  cases o with
  | none => cases h
  | some x => rfl

/-- C5: for a registered hash (of at least 8 characters) and a valid index
whose file is complete, when `MkdirAll` on the destination directory
succeeds: if `destPath = downloadDir/displayPath` exists the call returns
`destPath`; otherwise, if `downloadDir/<first 8 chars of hash>_<basename>`
exists it returns that legacy path; otherwise, if `downloadDir/<basename>`
exists it returns that path. The package state is returned unchanged. -/
theorem DownloadTorrentFile_complete (s : Session) (fs : FsEnv) (hash fileStr : GoString)
    (t : Torrent) (file : File) (idx : Nat) (hcl : s.client.isSome = true)
    (hreg : s.lookup hash = some t) (hidx : Atoi fileStr = ((idx : Int), none))
    (hfile : t.files.get? idx = some (some file)) (hhash : 8 ≤ hash.length)
    (hdone : file.bytesCompleted = file.Length)
    (hmk : fs.mkdirAll (Dir (Join s.downloadDir file.displayPath)) = none) :
    ∃ eff : List Effect,
      (fs.stat (Join s.downloadDir file.displayPath) = true →
        DownloadTorrentFile s fs hash fileStr =
          some (s, Join s.downloadDir file.displayPath, eff)) ∧
      (fs.stat (Join s.downloadDir file.displayPath) = false →
        fs.stat (Join s.downloadDir (hash.take 8 ++ "_".toList ++ Base file.displayPath)) = true →
        DownloadTorrentFile s fs hash fileStr =
          some (s, Join s.downloadDir (hash.take 8 ++ "_".toList ++ Base file.displayPath), eff)) ∧
      (fs.stat (Join s.downloadDir file.displayPath) = false →
        fs.stat (Join s.downloadDir (hash.take 8 ++ "_".toList ++ Base file.displayPath)) = false →
        fs.stat (Join s.downloadDir (Base file.displayPath)) = true →
        DownloadTorrentFile s fs hash fileStr =
          some (s, Join s.downloadDir (Base file.displayPath), eff)) := by
  have hne := Atoi_ok_ne_nil hidx
  have hnull := Atoi_ok_ne_null hidx
  have hlt := get?_some_lt hfile
  have hcn := isNone_of_isSome hcl
  have hrange : ¬ ((idx : Int) < 0 ∨ (idx : Int) ≥ (t.files.length : Int)) := by omega
  have hlen : ¬ hash.length < 8 := by omega
  refine ⟨[.mkdirAll (Dir (Join s.downloadDir file.displayPath)), .setPriorityHigh hash idx],
    ?_, ?_, ?_⟩
  · intro h1
    simp only [DownloadTorrentFile, hcn, Bool.false_eq_true, if_false, hreg, hidx, hne, hnull,
      or_self, hrange, Int.toNat_ofNat, hfile, hmk, hdone, if_true, h1]
  · intro h1 h2
    simp only [DownloadTorrentFile, hcn, Bool.false_eq_true, if_false, hreg, hidx, hne, hnull,
      or_self, hrange, Int.toNat_ofNat, hfile, hmk, hdone, if_true, h1, hlen, h2]
  · intro h1 h2 h3
    simp only [DownloadTorrentFile, hcn, Bool.false_eq_true, if_false, hreg, hidx, hne, hnull,
      or_self, hrange, Int.toNat_ofNat, hfile, hmk, hdone, if_true, h1, hlen, h2, h3]

theorem DownloadTorrentFile_complete_witness :
    ∃ eff : List Effect,
      ((fsWith ["/dl/01234567_ep1.mkv".toList]).stat
          (Join sampleSession.downloadDir sampleFile.displayPath) = true →
        DownloadTorrentFile sampleSession (fsWith ["/dl/01234567_ep1.mkv".toList]) sampleHash
            "0".toList =
          some (sampleSession, Join sampleSession.downloadDir sampleFile.displayPath, eff)) ∧
      ((fsWith ["/dl/01234567_ep1.mkv".toList]).stat
          (Join sampleSession.downloadDir sampleFile.displayPath) = false →
        (fsWith ["/dl/01234567_ep1.mkv".toList]).stat (Join sampleSession.downloadDir
          (sampleHash.take 8 ++ "_".toList ++ Base sampleFile.displayPath)) = true →
        DownloadTorrentFile sampleSession (fsWith ["/dl/01234567_ep1.mkv".toList]) sampleHash
            "0".toList =
          some (sampleSession, Join sampleSession.downloadDir
            (sampleHash.take 8 ++ "_".toList ++ Base sampleFile.displayPath), eff)) ∧
      ((fsWith ["/dl/01234567_ep1.mkv".toList]).stat
          (Join sampleSession.downloadDir sampleFile.displayPath) = false →
        (fsWith ["/dl/01234567_ep1.mkv".toList]).stat (Join sampleSession.downloadDir
          (sampleHash.take 8 ++ "_".toList ++ Base sampleFile.displayPath)) = false →
        (fsWith ["/dl/01234567_ep1.mkv".toList]).stat
          (Join sampleSession.downloadDir (Base sampleFile.displayPath)) = true →
        DownloadTorrentFile sampleSession (fsWith ["/dl/01234567_ep1.mkv".toList]) sampleHash
            "0".toList =
          some (sampleSession, Join sampleSession.downloadDir (Base sampleFile.displayPath),
            eff)) :=
  DownloadTorrentFile_complete sampleSession (fsWith ["/dl/01234567_ep1.mkv".toList]) sampleHash
    "0".toList sampleTorrent sampleFile 0 (by decide) (by decide) (by decide) (by decide)
    (by decide) (by decide) (by decide)

/-! ## Unknown identifiers -/

theorem lookup_none_of_not_key (m : List (GoString × Torrent)) (id : GoString)
    (h : id ∉ m.map Prod.fst) : m.lookup id = none := by
  induction m with
  | nil => rfl
  | cons p ps ih =>
    rcases p with ⟨k, v⟩
    have hk : id ≠ k := by
      intro e
      apply h
      rw [e]
      exact List.mem_cons_self _ _
    have hps : id ∉ ps.map Prod.fst := fun e => h (List.mem_cons_of_mem _ e)
    have hbeq : (id == k) = false := by simpa using hk
    simp only [List.lookup, hbeq]
    exact ih hps

/-- C6: in an initialised session, for every identifier that is not a key of
the registry and every file-index string, `GetStreamURL`, `ListTorrentFiles`,
`DownloadTorrentFile` and `GetDownloadProgress` each return the string
`Error: Torrent with hash <id> not found` without a panic, leave the package
state as it was, and `DownloadTorrentFile` performs no effect. -/
theorem unknown_hash_not_found (s : Session) (fs : FsEnv) (id fileIndex : GoString)
    (hcl : s.client.isSome = true) (hkey : id ∉ s.torrents.map Prod.fst) :
    GetStreamURL s id fileIndex =
        (s, .text ("Error: Torrent with hash ".toList ++ id ++ " not found".toList)) ∧
      ListTorrentFiles s id =
        (s, .text ("Error: Torrent with hash ".toList ++ id ++ " not found".toList)) ∧
      DownloadTorrentFile s fs id fileIndex =
        some (s, "Error: Torrent with hash ".toList ++ id ++ " not found".toList, []) ∧
      GetDownloadProgress s id fileIndex =
        some (s, .text ("Error: Torrent with hash ".toList ++ id ++ " not found".toList)) := by
  have hcn := isNone_of_isSome hcl
  have hl : s.lookup id = none := lookup_none_of_not_key s.torrents id hkey
  refine ⟨?_, ?_, ?_, ?_⟩
  · simp only [GetStreamURL, hcn, Bool.false_eq_true, if_false, hl, notFoundMsg]
  · simp only [ListTorrentFiles, hcn, Bool.false_eq_true, if_false, hl, notFoundMsg]
  · simp only [DownloadTorrentFile, hcn, Bool.false_eq_true, if_false, hl, notFoundMsg]
  · simp only [GetDownloadProgress, hcn, Bool.false_eq_true, if_false, hl, notFoundMsg]

theorem unknown_hash_not_found_witness :
    GetStreamURL sampleSession "ffff".toList "null".toList =
        (sampleSession,
          .text ("Error: Torrent with hash ".toList ++ "ffff".toList ++ " not found".toList)) ∧
      ListTorrentFiles sampleSession "ffff".toList =
        (sampleSession,
          .text ("Error: Torrent with hash ".toList ++ "ffff".toList ++ " not found".toList)) ∧
      DownloadTorrentFile sampleSession (fsWith []) "ffff".toList "null".toList =
        some (sampleSession,
          "Error: Torrent with hash ".toList ++ "ffff".toList ++ " not found".toList, []) ∧
      GetDownloadProgress sampleSession "ffff".toList "null".toList =
        some (sampleSession,
          .text ("Error: Torrent with hash ".toList ++ "ffff".toList ++ " not found".toList)) :=
  unknown_hash_not_found sampleSession (fsWith []) "ffff".toList "null".toList (by decide)
    (by decide)

/-! ## File listing -/

theorem stripTrailingSep_of_no_sep (l : GoString) (h : '/' ∉ l) : stripTrailingSep l = l := by
  cases l with
  | nil => rfl
  | cons c cs =>
    have hc : c ≠ '/' := fun e => h (e ▸ List.mem_cons_self _ _)
    simp [stripTrailingSep, isPathSeparator, hc]

/-- A non-empty path without a separator is its own base name. -/
theorem Base_of_no_sep (path : GoString) (hne : path ≠ []) (h : '/' ∉ path) :
    Base path = path := by
  have hrev : '/' ∉ path.reverse := fun e => h (List.mem_reverse.mp e)
  have htw : List.takeWhile (fun c => !isPathSeparator c) path.reverse = path.reverse := by
    rw [List.takeWhile_eq_self_iff]
    intro c hc
    have : c ≠ '/' := fun e => hrev (e ▸ hc)
    simp [isPathSeparator, this]
  simp only [Base, hne, if_false, stripTrailingSep_of_no_sep _ hrev, htw, List.reverse_reverse]

theorem Base_unknown_file (i : Nat) :
    Base ("Unknown_File_".toList ++ formatInt i) = "Unknown_File_".toList ++ formatInt i := by
  apply Base_of_no_sep
  · simp
  · rw [formatInt_natCast]
    intro hmem
    rcases List.mem_append.mp hmem with h | h
    · exact absurd h (by decide)
    · exact isDigit_ne_slash (formatUint_digits i _ h) rfl

theorem getFilesListLoop_spec (files : List (Option File)) (hnn : ∀ f ∈ files, f ≠ none) :
    ∀ k, (getFilesListLoop k files).length = files.length ∧
      ∀ i file, files.get? i = some (some file) →
        (getFilesListLoop k files).get? i = some (fileEntry (k + i) file) := by
  induction files with
  | nil => intro k; simp [getFilesListLoop]
  | cons f fs ih =>
    intro k
    have hfs : ∀ g ∈ fs, g ≠ none := fun g hg => hnn g (List.mem_cons_of_mem _ hg)
    cases f with
    | none => exact absurd rfl (hnn none (List.mem_cons_self _ _))
    | some file0 =>
      obtain ⟨hl, hget⟩ := ih hfs (k + 1)
      refine ⟨by simp [getFilesListLoop, hl], ?_⟩
      intro i file hi
      cases i with
      | zero =>
        simp only [List.get?_cons_zero, Option.some.injEq] at hi
        subst hi
        simp only [getFilesListLoop, List.get?_cons_zero, fileEntry, Nat.add_zero]
        by_cases hd : file0.displayPath = []
        · simp only [hd, if_true, Base_unknown_file]
        · simp [hd]
      | succ j =>
        simp only [List.get?_cons_succ] at hi
        have := hget j file hi
        simp only [getFilesListLoop, List.get?_cons_succ, this]
        congr 2
        omega

/-- C7: for a transfer whose engine file list has `N` entries (none of them
a nil pointer), `getFilesList` returns exactly `N` entries; the `i`-th
returned entry describes the `i`-th file of the engine list: its `index` is
`i`, its size the file length, its name the base name of the display path, or
`Unknown_File_<i>` when the display path is empty. `ListTorrentFiles` returns
this list for a registered hash. -/
theorem getFilesList_entries (t : Torrent) (hnn : ∀ f ∈ t.files, f ≠ none) :
    (getFilesList t).length = t.files.length ∧
      (∀ i file, t.files.get? i = some (some file) →
        ∃ e : TorrentFile, (getFilesList t).get? i = some e ∧
          e.Index = (i : Int) ∧ e.Size = file.Length ∧
          (file.displayPath ≠ [] →
            e.Name = Base file.displayPath ∧ e.Path = file.displayPath) ∧
          (file.displayPath = [] →
            e.Name = "Unknown_File_".toList ++ formatInt i ∧
            e.Path = "Unknown_File_".toList ++ formatInt i)) ∧
      (∀ (s : Session) (hash : GoString), s.client.isSome = true → s.lookup hash = some t →
        ListTorrentFiles s hash = (s, .filesJSON (getFilesList t))) := by
  have hspec := getFilesListLoop_spec t.files hnn 0
  refine ⟨?_, ?_, ?_⟩
  · unfold getFilesList
    split_ifs with h0
    · simp only [List.length_nil]; omega
    · exact hspec.1
  · intro i file hi
    have hlt := get?_some_lt hi
    have h0 : ¬ t.files.length = 0 := by omega
    refine ⟨fileEntry i file, ?_, rfl, rfl, ?_, ?_⟩
    · simp only [getFilesList, h0, if_false]
      have := hspec.2 i file hi
      rw [Nat.zero_add] at this
      exact this
    · intro hd; simp [fileEntry, hd]
    · intro hd; simp [fileEntry, hd]
  · intro s hash hcl hreg
    simp only [ListTorrentFiles, isNone_of_isSome hcl, Bool.false_eq_true, if_false, hreg]

theorem getFilesList_entries_witness :
    (getFilesList twoFileTorrent).length = twoFileTorrent.files.length ∧
      (∀ i file, twoFileTorrent.files.get? i = some (some file) →
        ∃ e : TorrentFile, (getFilesList twoFileTorrent).get? i = some e ∧
          e.Index = (i : Int) ∧ e.Size = file.Length ∧
          (file.displayPath ≠ [] →
            e.Name = Base file.displayPath ∧ e.Path = file.displayPath) ∧
          (file.displayPath = [] →
            e.Name = "Unknown_File_".toList ++ formatInt i ∧
            e.Path = "Unknown_File_".toList ++ formatInt i)) ∧
      (∀ (s : Session) (hash : GoString), s.client.isSome = true →
        s.lookup hash = some twoFileTorrent →
        ListTorrentFiles s hash = (s, .filesJSON (getFilesList twoFileTorrent))) :=
  getFilesList_entries twoFileTorrent (by decide)

/-! ## Session lifecycle -/

theorem Clean_ne_nil (path : GoString) : Clean path ≠ [] := by
  unfold Clean
  cases path with
  | nil => simp
  | cons c cs =>
    simp only
    split_ifs <;> simp_all

theorem Join_ne_nil (a b : GoString) (hb : b ≠ []) : Join a b ≠ [] := by
  unfold Join
  split_ifs
  · exact Clean_ne_nil _
  · exact Clean_ne_nil _

theorem initDir_ne_nil (cacheDir custom : GoString) (env : InitEnv) :
    initDir cacheDir custom env ≠ [] := by
  unfold initDir
  split_ifs with h1 h2
  · exact h1
  · exact Join_ne_nil _ _ (by decide)
  · decide

/-- The four shapes of the package state after `InitTorrentClient`. -/
theorem InitTorrentClient_state (s : Session) (cacheDir custom : GoString) (env : InitEnv) :
    (InitTorrentClient s cacheDir custom env).1 = tornDown s ∨
      (InitTorrentClient s cacheDir custom env).1 =
        { tornDown s with downloadDir := initDir cacheDir custom env } ∨
      (∃ port : Int, (InitTorrentClient s cacheDir custom env).1 =
        { tornDown s with
          downloadDir := initDir cacheDir custom env
          client := some { dataDir := initDir cacheDir custom env }
          serverPort := port }) ∨
      (∃ port : Int, (InitTorrentClient s cacheDir custom env).1 =
        { tornDown s with
          downloadDir := initDir cacheDir custom env
          client := some { dataDir := initDir cacheDir custom env }
          serverPort := port
          httpServer := some { port := port } }) := by
  have htd : (if (if s.client.isSome = true then
        ({ s with torrents := [], client := none } : Session) else s).httpServer.isSome = true
      then { (if s.client.isSome = true then
        ({ s with torrents := [], client := none } : Session) else s) with httpServer := none }
      else (if s.client.isSome = true then
        ({ s with torrents := [], client := none } : Session) else s)) = tornDown s := by
    rcases s with ⟨cl, ts, dd, hs, sp⟩
    cases cl <;> cases hs <;> rfl
  rcases env with ⟨dne, mk1, wf, mk2, nc, lok⟩
  unfold InitTorrentClient
  simp only [htd, initDir]
  by_cases hcache : cacheDir = []
  · left; rw [if_pos hcache]
  · rw [if_neg hcache]
    right
    cases mk1 with
    | some e => left; rfl
    | none =>
      cases wf with
      | some e => left; rfl
      | none =>
        cases mk2 with
        | some e => left; rfl
        | none =>
          cases nc with
          | some e => left; rfl
          | none =>
            right
            rcases hport : findAvailablePort lok 8080 with ⟨port, perr⟩
            simp only [hport]
            cases perr with
            | some e => left; exact ⟨port, rfl⟩
            | none => right; exact ⟨port, rfl⟩

theorem InitTorrentClient_registry (s : Session) (cacheDir custom : GoString) (env : InitEnv)
    (hinv : RegistryInv s) : (InitTorrentClient s cacheDir custom env).1.torrents = [] := by
  have htd : (tornDown s).torrents = [] := by
    unfold tornDown
    cases hc : s.client with
    | none => simpa using hinv hc
    | some c => simp
  rcases InitTorrentClient_state s cacheDir custom env with h | h | ⟨p, h⟩ | ⟨p, h⟩ <;>
    rw [h] <;> exact htd

theorem InitTorrentClient_handles (s : Session) (cacheDir custom : GoString) (env : InitEnv) :
    HandleInv (InitTorrentClient s cacheDir custom env).1 := by
  have hd := initDir_ne_nil cacheDir custom env
  rcases InitTorrentClient_state s cacheDir custom env with h | h | ⟨p, h⟩ | ⟨p, h⟩ <;>
    rw [h] <;> refine ⟨?_, ?_⟩ <;> simp [tornDown, hd]

theorem AddTorrent_fields (s : Session) (uri : GoString) (env : AddEnv) :
    (AddTorrentAndGetInfoHash s uri env).1.client = s.client ∧
      (AddTorrentAndGetInfoHash s uri env).1.httpServer = s.httpServer ∧
      (AddTorrentAndGetInfoHash s uri env).1.downloadDir = s.downloadDir ∧
      (s.client = none → (AddTorrentAndGetInfoHash s uri env).1 = s) := by
  rcases env with ⟨ae, tr, gi⟩
  unfold AddTorrentAndGetInfoHash
  by_cases hn : s.client = none
  · have hi : s.client.isNone = true := by rw [hn]; rfl
    rw [if_pos hi]
    exact ⟨rfl, rfl, rfl, fun _ => rfl⟩
  · have hi : ¬ s.client.isNone = true := by
      cases hc : s.client with
      | none => exact absurd hc hn
      | some c => simp
    rw [if_neg hi]
    refine ⟨?_, ?_, ?_, fun h => absurd h hn⟩ <;>
      cases ae <;> cases tr <;> cases gi <;> simp only [] <;> split_ifs <;> rfl

theorem ShutdownTorrentClient_state (s : Session) :
    (s.client = none ∧ (ShutdownTorrentClient s).1 = s) ∨
      ((ShutdownTorrentClient s).1.client = none ∧ (ShutdownTorrentClient s).1.torrents = [] ∧
        (ShutdownTorrentClient s).1.httpServer = none) := by
  rcases s with ⟨cl, ts, dd, hs, sp⟩
  cases cl <;> cases hs <;> simp [ShutdownTorrentClient]

theorem step_RegistryInv (s : Session) (c : Call) (h : RegistryInv s) :
    RegistryInv (step s c) := by
  cases c with
  | init cacheDir custom env =>
    intro _
    exact InitTorrentClient_registry s cacheDir custom env h
  | add uri env =>
    obtain ⟨hcl, -, -, hsame⟩ := AddTorrent_fields s uri env
    intro hnone
    simp only [step] at hnone ⊢
    rw [hcl] at hnone
    rw [hsame hnone]
    exact h hnone
  | shutdown =>
    intro hnone
    simp only [step] at hnone ⊢
    rcases ShutdownTorrentClient_state s with ⟨hc, hs⟩ | ⟨-, ht, -⟩
    · rw [hs]; exact h hc
    · exact ht

theorem step_HandleInv (s : Session) (c : Call) (h : HandleInv s) : HandleInv (step s c) := by
  cases c with
  | init cacheDir custom env => exact InitTorrentClient_handles s cacheDir custom env
  | add uri env =>
    obtain ⟨hcl, hhs, hdd, -⟩ := AddTorrent_fields s uri env
    simp only [step, HandleInv, hcl, hhs, hdd]
    exact h
  | shutdown =>
    simp only [step]
    rcases ShutdownTorrentClient_state s with ⟨-, hs⟩ | ⟨hc, -, hh⟩
    · rw [hs]; exact h
    · simp [HandleInv, hc, hh]

theorem foldl_step_inv (P : Session → Prop) (hstep : ∀ s c, P s → P (step s c))
    (calls : List Call) : ∀ s, P s → P (calls.foldl step s) := by
  induction calls with
  | nil => intro s hs; exact hs
  | cons c cs ih => intro s hs; exact ih _ (hstep s c hs)

theorem run_RegistryInv (calls : List Call) : RegistryInv (run calls) :=
  foldl_step_inv RegistryInv step_RegistryInv calls _ (fun _ => rfl)

theorem run_HandleInv (calls : List Call) : HandleInv (run calls) :=
  foldl_step_inv HandleInv step_HandleInv calls _ ⟨by decide, by decide⟩

/-- C8: after any sequence of `Init`, `AddTransfer` and `Shutdown` calls from
program start, the registry is empty right after a further `Init` returns,
whatever the outcome of that `Init`; so for every identifier and file index
each of `GetStreamURL`, `ListTorrentFiles`, `DownloadTorrentFile` and
`GetDownloadProgress` then answers with the not-initialised or the not-found
error, never with a URL, listing, path or progress. -/
theorem InitTorrentClient_empties_registry (calls : List Call) (cacheDir custom : GoString)
    (env : InitEnv) (fs : FsEnv) (id fileIndex : GoString) :
    (InitTorrentClient (run calls) cacheDir custom env).1.torrents = [] ∧
      ((GetStreamURL (InitTorrentClient (run calls) cacheDir custom env).1 id fileIndex).2 =
          .text "Error: Torrent client not initialized".toList ∨
        (GetStreamURL (InitTorrentClient (run calls) cacheDir custom env).1 id fileIndex).2 =
          .text ("Error: Torrent with hash ".toList ++ id ++ " not found".toList)) ∧
      ((ListTorrentFiles (InitTorrentClient (run calls) cacheDir custom env).1 id).2 =
          .text "Error: Torrent client not initialized".toList ∨
        (ListTorrentFiles (InitTorrentClient (run calls) cacheDir custom env).1 id).2 =
          .text ("Error: Torrent with hash ".toList ++ id ++ " not found".toList)) ∧
      ((DownloadTorrentFile (InitTorrentClient (run calls) cacheDir custom env).1 fs id
            fileIndex).map (fun r => r.2.1) =
          some "Error: Torrent client not initialized".toList ∨
        (DownloadTorrentFile (InitTorrentClient (run calls) cacheDir custom env).1 fs id
            fileIndex).map (fun r => r.2.1) =
          some ("Error: Torrent with hash ".toList ++ id ++ " not found".toList)) ∧
      ((GetDownloadProgress (InitTorrentClient (run calls) cacheDir custom env).1 id
            fileIndex).map (fun r => r.2) =
          some (.text "Error: Torrent client not initialized".toList) ∨
        (GetDownloadProgress (InitTorrentClient (run calls) cacheDir custom env).1 id
            fileIndex).map (fun r => r.2) =
          some (.text ("Error: Torrent with hash ".toList ++ id ++ " not found".toList))) := by
  have hreg := InitTorrentClient_registry (run calls) cacheDir custom env (run_RegistryInv calls)
  generalize (InitTorrentClient (run calls) cacheDir custom env).1 = s' at hreg ⊢
  have hl : s'.lookup id = none := by
    unfold Session.lookup; rw [hreg]; rfl
  refine ⟨hreg, ?_, ?_, ?_, ?_⟩
  · cases hc : s'.client.isNone
    · right; simp only [GetStreamURL, hc, Bool.false_eq_true, if_false, hl, notFoundMsg]
    · left; simp only [GetStreamURL, hc, if_true]
  · cases hc : s'.client.isNone
    · right; simp only [ListTorrentFiles, hc, Bool.false_eq_true, if_false, hl, notFoundMsg]
    · left; simp only [ListTorrentFiles, hc, if_true]
  · cases hc : s'.client.isNone
    · right
      simp only [DownloadTorrentFile, hc, Bool.false_eq_true, if_false, hl, notFoundMsg,
        Option.map_some']
    · left; simp only [DownloadTorrentFile, hc, if_true, Option.map_some']
  · cases hc : s'.client.isNone
    · right
      simp only [GetDownloadProgress, hc, Bool.false_eq_true, if_false, hl, notFoundMsg,
        Option.map_some']
    · left; simp only [GetDownloadProgress, hc, if_true, Option.map_some']

/-- C9, the claim as stated fails: after a successful `Init` with download
directory `/dl` followed by `Shutdown`, the engine and the listener are nil
while `downloadDir` is still `/dl`. -/
theorem downloadDir_survives_shutdown_counterexample :
    (run [.init "/cache".toList "/dl".toList okInitEnv, .shutdown]).client = none ∧
      (run [.init "/cache".toList "/dl".toList okInitEnv, .shutdown]).httpServer = none ∧
      (run [.init "/cache".toList "/dl".toList okInitEnv, .shutdown]).downloadDir =
        "/dl".toList ∧
      ¬ ((run [.init "/cache".toList "/dl".toList okInitEnv, .shutdown]).client.isSome = true ↔
        (run [.init "/cache".toList "/dl".toList okInitEnv, .shutdown]).downloadDir ≠ []) := by
  decide

/-- C9 (as amended): in every state reached from program start by `Init`
(with any outcome), `AddTransfer` and `Shutdown` calls, a non-nil
`httpServer` implies a non-nil engine, and a non-nil engine implies a
non-empty `downloadDir`. -/
theorem handles_imply_chain (calls : List Call) :
    ((run calls).httpServer.isSome = true → (run calls).client.isSome = true) ∧
      ((run calls).client.isSome = true → (run calls).downloadDir ≠ []) :=
  run_HandleInv calls

/-! ## Further evaluations -/

/-- A header naming another unit (`items=0-5`) leaves `start = end = 0`: the
reply has status 200 and no `Content-Range`, and one byte of the ten-byte
sample file is copied. -/
theorem streamHandler_other_unit_copies_one_byte :
    streamHandler sampleSession
        { hash := sampleHash, file := "0".toList, range := "items=0-5".toList } =
      some (.stream
        { status := 200
          contentType := "video/x-matroska".toList
          contentLength := "10".toList
          acceptRanges := "bytes".toList
          contentRange := none
          readerPos := 0
          copyCount := 1
          body := [10] }) := by
  decide

/-- An `Init` whose port scan finds no free port returns with the new engine
set and no listener. -/
theorem init_port_scan_failure_state :
    (run [.init "/cache".toList "/dl".toList
        { okInitEnv with listenOk := fun _ => false }]).client =
        some { dataDir := "/dl".toList } ∧
      (run [.init "/cache".toList "/dl".toList
        { okInitEnv with listenOk := fun _ => false }]).httpServer = none := by
  decide

/-! ## Port scan -/

/-- The scan over the `k` ports below `limit`, when no increment overflows:
either no port of `[port, limit)` can be bound and the error is returned with
port 0, or the first port that can be bound is returned. -/
theorem findAvailablePortLoop_spec (listenOk : Int → Bool) (limit : Int)
    (hlim : limit ≤ 9223372036854775807) :
    ∀ (k : Nat) (port : Int), port + k = limit → -9223372036854775808 ≤ port →
      (findAvailablePortLoop listenOk limit k port =
            (0, some "no available ports found".toList) ∧
          ∀ q, port ≤ q → q < limit → listenOk q = false) ∨
        ∃ p, findAvailablePortLoop listenOk limit k port = (p, none) ∧ port ≤ p ∧ p < limit ∧
          listenOk p = true ∧ ∀ q, port ≤ q → q < p → listenOk q = false := by
  intro k
  induction k with
  | zero =>
    intro port hk _
    left
    refine ⟨rfl, ?_⟩
    intro q h1 h2
    omega
  | succ n ih =>
    intro port hk hlo
    have hlt : port < limit := by omega
    unfold findAvailablePortLoop
    rw [if_pos hlt]
    cases hfree : listenOk port with
    | true =>
      right
      exact ⟨port, by simp, le_refl _, hlt, hfree, fun q h1 h2 => by omega⟩
    | false =>
      have hw : wrapInt64 (port + 1) = port + 1 := wrapInt64_of_bounds _ (by omega) (by omega)
      simp only [Bool.false_eq_true, if_false, hw]
      rcases ih (port + 1) (by omega) (by omega) with ⟨he, hnone⟩ | ⟨p, hp, h1, h2, h3, h4⟩
      · left
        refine ⟨he, ?_⟩
        intro q hq1 hq2
        rcases eq_or_lt_of_le hq1 with heq | hgt
        · rw [← heq]; exact hfree
        · exact hnone q (by omega) hq2
      · right
        refine ⟨p, hp, by omega, h2, h3, ?_⟩
        intro q hq1 hq2
        rcases eq_or_lt_of_le hq1 with heq | hgt
        · rw [← heq]; exact hfree
        · exact h4 q (by omega) hq2

/-- The two implementations scan alike: same port, and an error in one
exactly when in the other. -/
theorem findAvailablePortLoop_agree (listenOk : Int → Bool) (limit : Int) :
    ∀ (k : Nat) (port : Int),
      (TopLevel.findAvailablePortLoop listenOk limit k port).1 =
          (findAvailablePortLoop listenOk limit k port).1 ∧
        ((TopLevel.findAvailablePortLoop listenOk limit k port).2 = none ↔
          (findAvailablePortLoop listenOk limit k port).2 = none) := by
  intro k
  induction k with
  | zero => intro port; simp [findAvailablePortLoop, TopLevel.findAvailablePortLoop]
  | succ n ih =>
    intro port
    unfold findAvailablePortLoop TopLevel.findAvailablePortLoop
    by_cases hlt : port < limit
    · rw [if_pos hlt, if_pos hlt]
      cases hfree : listenOk port with
      | true => simp
      | false =>
        simp only [Bool.false_eq_true, if_false]
        exact ih _
    · rw [if_neg hlt, if_neg hlt]
      simp

/-- Once the scan has stopped, more iterations change nothing: the bound of
100 iterations in the model loses no behaviour of the loop. -/
theorem findAvailablePortLoop_fuel (listenOk : Int → Bool) (startPort : Int)
    (hlo : -9223372036854775808 ≤ startPort) (hhi : startPort ≤ 9223372036854775807) :
    ∀ extra : Nat, ∀ (k : Nat) (port : Int), port + k = startPort + 100 → startPort ≤ port →
      findAvailablePortLoop listenOk (wrapInt64 (startPort + 100)) (k + extra) port =
        findAvailablePortLoop listenOk (wrapInt64 (startPort + 100)) k port := by
  intro extra
  by_cases hov : startPort + 100 ≤ 9223372036854775807
  · have hw : wrapInt64 (startPort + 100) = startPort + 100 :=
      wrapInt64_of_bounds _ (by omega) (by omega)
    rw [hw]
    intro k
    induction k with
    | zero =>
      intro port hk _
      cases extra with
      | zero => rfl
      | succ e =>
        simp only [Nat.zero_add]
        unfold findAvailablePortLoop
        rw [if_neg (by omega)]
    | succ n ih =>
      intro port hk hge
      have hlt : port < startPort + 100 := by omega
      have hs : n + 1 + extra = (n + extra) + 1 := by omega
      rw [hs]
      unfold findAvailablePortLoop
      rw [if_pos hlt, if_pos hlt]
      cases hfree : listenOk port with
      | true => simp
      | false =>
        have hw1 : wrapInt64 (port + 1) = port + 1 := wrapInt64_of_bounds _ (by omega) (by omega)
        simp only [Bool.false_eq_true, if_false, hw1]
        exact ih (port + 1) (by omega) (by omega)
  · have hw : wrapInt64 (startPort + 100) = startPort + 100 - 18446744073709551616 := by
      unfold wrapInt64; omega
    rw [hw]
    intro k port hk hge
    have hnlt : ¬ port < startPort + 100 - 18446744073709551616 := by omega
    have h1 : ∀ m : Nat, findAvailablePortLoop listenOk
        (startPort + 100 - 18446744073709551616) m port =
        (0, some "no available ports found".toList) := by
      intro m
      cases m with
      | zero => rfl
      | succ j => unfold findAvailablePortLoop; rw [if_neg hnlt]
    rw [h1, h1]

/-- The two outcomes of `findAvailablePort`, when the scan range does not
overflow or no port above 65535 can be bound. -/
theorem findAvailablePort_cases (listenOk : Int → Bool) (startPort : Int)
    (hlo : -9223372036854775808 ≤ startPort)
    (hport : startPort + 100 ≤ 9223372036854775807 ∨ ∀ p, listenOk p = true → p ≤ 65535) :
    (findAvailablePort listenOk startPort = (0, some "no available ports found".toList) ∧
        ∀ q, startPort ≤ q → q < startPort + 100 → listenOk q = false) ∨
      ∃ p, findAvailablePort listenOk startPort = (p, none) ∧ startPort ≤ p ∧
        p < startPort + 100 ∧ listenOk p = true ∧
        ∀ q, startPort ≤ q → q < p → listenOk q = false := by
  by_cases hov : startPort + 100 ≤ 9223372036854775807
  · have hw : wrapInt64 (startPort + 100) = startPort + 100 :=
      wrapInt64_of_bounds _ (by omega) (by omega)
    unfold findAvailablePort
    rw [hw]
    exact findAvailablePortLoop_spec listenOk (startPort + 100) hov 100 startPort
      (by omega) hlo
  · have hreal : ∀ p, listenOk p = true → p ≤ 65535 := by
      rcases hport with h | h
      · exact absurd h hov
      · exact h
    left
    refine ⟨?_, ?_⟩
    · have hnlt : ¬ startPort < wrapInt64 (startPort + 100) := by
        unfold wrapInt64; omega
      unfold findAvailablePort findAvailablePortLoop
      rw [if_neg hnlt]
    · intro q hq1 _
      cases hq : listenOk q with
      | false => rfl
      | true =>
        have := hreal q hq
        omega

/-- C11: for every `startPort` of type `int` and every predicate telling on
which ports listening succeeds, provided `startPort+100` does not overflow or
no port above 65535 can be bound: when one of the 100 candidates
`startPort .. startPort+99` is free, `findAvailablePort` returns the smallest
free one without error; it returns an error if and only if none of them is
free, and the port is then 0; the implementation in
`torrent_streamer/torrent.go` returns the same port and an error in the same
cases; and letting the loop run longer than 100 iterations changes nothing. -/
theorem findAvailablePort_smallest_free (listenOk : Int → Bool) (startPort : Int)
    (hlo : -9223372036854775808 ≤ startPort) (hhi : startPort ≤ 9223372036854775807)
    (hport : startPort + 100 ≤ 9223372036854775807 ∨ ∀ p, listenOk p = true → p ≤ 65535) :
    ((∃ p, startPort ≤ p ∧ p < startPort + 100 ∧ listenOk p = true) →
        ∃ p, findAvailablePort listenOk startPort = (p, none) ∧ startPort ≤ p ∧
          p < startPort + 100 ∧ listenOk p = true ∧
          ∀ q, startPort ≤ q → q < p → listenOk q = false) ∧
      ((findAvailablePort listenOk startPort).2 ≠ none ↔
        ∀ p, startPort ≤ p → p < startPort + 100 → listenOk p = false) ∧
      ((findAvailablePort listenOk startPort).2 ≠ none →
        (findAvailablePort listenOk startPort).1 = 0) ∧
      (TopLevel.findAvailablePort listenOk startPort).1 =
        (findAvailablePort listenOk startPort).1 ∧
      ((TopLevel.findAvailablePort listenOk startPort).2 = none ↔
        (findAvailablePort listenOk startPort).2 = none) ∧
      (∀ extra : Nat,
        findAvailablePortLoop listenOk (wrapInt64 (startPort + 100)) (100 + extra) startPort =
          findAvailablePort listenOk startPort) := by
  have hagree := findAvailablePortLoop_agree listenOk (wrapInt64 (startPort + 100)) 100 startPort
  have hfuel : ∀ extra : Nat,
      findAvailablePortLoop listenOk (wrapInt64 (startPort + 100)) (100 + extra) startPort =
        findAvailablePort listenOk startPort := fun extra =>
    findAvailablePortLoop_fuel listenOk startPort hlo hhi extra 100 startPort (by omega)
      (le_refl _)
  rcases findAvailablePort_cases listenOk startPort hlo hport with
    ⟨herr, hnone⟩ | ⟨p, hp, h1, h2, h3, h4⟩
  · refine ⟨?_, ?_, ?_, hagree.1, hagree.2, hfuel⟩
    · rintro ⟨p, hp1, hp2, hp3⟩
      rw [hnone p hp1 hp2] at hp3
      cases hp3
    · rw [herr]
      exact ⟨fun _ => hnone, fun _ => by simp⟩
    · intro _
      rw [herr]
  · refine ⟨fun _ => ⟨p, hp, h1, h2, h3, h4⟩, ?_, ?_, hagree.1, hagree.2, hfuel⟩
    · rw [hp]
      constructor
      · intro h; exact absurd rfl h
      · intro hall
        rw [hall p h1 h2] at h3
        cases h3
    · rw [hp]
      intro h; exact absurd rfl h

theorem findAvailablePort_smallest_free_witness :
    ((∃ p, (8080 : Int) ≤ p ∧ p < 8080 + 100 ∧ (fun q : Int => decide (8083 ≤ q)) p = true) →
        ∃ p, findAvailablePort (fun q : Int => decide (8083 ≤ q)) 8080 = (p, none) ∧ 8080 ≤ p ∧
          p < 8080 + 100 ∧ (fun q : Int => decide (8083 ≤ q)) p = true ∧
          ∀ q, 8080 ≤ q → q < p → (fun q : Int => decide (8083 ≤ q)) q = false) ∧
      ((findAvailablePort (fun q : Int => decide (8083 ≤ q)) 8080).2 ≠ none ↔
        ∀ p, (8080 : Int) ≤ p → p < 8080 + 100 →
          (fun q : Int => decide (8083 ≤ q)) p = false) ∧
      ((findAvailablePort (fun q : Int => decide (8083 ≤ q)) 8080).2 ≠ none →
        (findAvailablePort (fun q : Int => decide (8083 ≤ q)) 8080).1 = 0) ∧
      (TopLevel.findAvailablePort (fun q : Int => decide (8083 ≤ q)) 8080).1 =
        (findAvailablePort (fun q : Int => decide (8083 ≤ q)) 8080).1 ∧
      ((TopLevel.findAvailablePort (fun q : Int => decide (8083 ≤ q)) 8080).2 = none ↔
        (findAvailablePort (fun q : Int => decide (8083 ≤ q)) 8080).2 = none) ∧
      (∀ extra : Nat,
        findAvailablePortLoop (fun q : Int => decide (8083 ≤ q)) (wrapInt64 (8080 + 100))
            (100 + extra) 8080 =
          findAvailablePort (fun q : Int => decide (8083 ≤ q)) 8080) :=
  findAvailablePort_smallest_free (fun q : Int => decide (8083 ≤ q)) 8080 (by decide) (by decide)
    (Or.inl (by decide))

/-- With a predicate that lets every integer be bound, a start port within
100 of the largest `int` makes `startPort+100` wrap to a negative bound: the
loop body never runs and the error is returned. -/
theorem findAvailablePort_wrapped_bound :
    findAvailablePort (fun _ => true) 9223372036854775757 =
      (0, some "no available ports found".toList) := by
  decide

end TorrentStreamer
